import Mathlib

/-!
Verification of the MIDI-over-LAN core against its specification.

The Python sources `protocol.py`, `midi_receiver.py`, `midi_sender.py` and
`worker_messages.py` are shallowly embedded: a Python `str` becomes the list of
its Unicode code points, `bytes` becomes a list of naturals below 256, the
worker loops become step functions on explicit state records, and raisable
Python code returns `Except PyExc`.  `time.perf_counter()` timestamps are
modelled by rationals supplied as step inputs.
-/

namespace MidiOverLan

/-- A Python `str`, modelled as the list of its Unicode code points. -/
abbrev PyStr := List Nat

/-- A Unicode scalar value: a code point outside the surrogate range.  Python
can UTF-8-encode exactly these. -/
def ScalarValue (c : Nat) : Prop := c < 0x110000 ∧ (c < 0xD800 ∨ 0xDFFF < c)

instance (c : Nat) : Decidable (ScalarValue c) := by
  unfold ScalarValue; infer_instance

/-- UTF-8 encoding of a single code point (standard 1-4 byte form). -/
def utf8EncodeChar (c : Nat) : List Nat :=
  if c < 0x80 then [c]
  else if c < 0x800 then [0xC0 + c / 64, 0x80 + c % 64]
  else if c < 0x10000 then [0xE0 + c / 4096, 0x80 + c / 64 % 64, 0x80 + c % 64]
  else [0xF0 + c / 262144, 0x80 + c / 4096 % 64, 0x80 + c / 64 % 64, 0x80 + c % 64]

/-- UTF-8 encoding of a string (`str.encode('utf-8')` on scalar values). -/
def utf8Encode (s : PyStr) : List Nat := s.flatMap utf8EncodeChar

/-- Action of a byte encountered in the clean (between-characters) state of
the UTF-8 decoding automaton: an ASCII character, the start of a multi-byte
sequence, or a malformed byte.  A start state is `(need, acc, lo, hi)`:
`need` further continuation bytes, accumulated value `acc`, and the next byte
must lie in `[lo, hi]`.  The bounds encode RFC 3629 exactly as CPython checks
it: no overlong forms, no surrogates, nothing above U+10FFFF. -/
inductive Utf8Lead where
  | emit (c : Nat)
  | start (st : Nat × Nat × Nat × Nat)
  | bad

/-- Classify a byte seen in the clean state of the UTF-8 automaton. -/
def utf8LeadAction (b : Nat) : Utf8Lead :=
  if b < 0x80 then .emit b
  else if b < 0xC2 then .bad
  else if b < 0xE0 then .start (1, b - 0xC0, 0x80, 0xBF)
  else if b < 0xF0 then
    .start (2, b - 0xE0, if b = 0xE0 then 0xA0 else 0x80, if b = 0xED then 0x9F else 0xBF)
  else if b < 0xF5 then
    .start (3, b - 0xF0, if b = 0xF0 then 0x90 else 0x80, if b = 0xF4 then 0x8F else 0xBF)
  else .bad

/-- Strict UTF-8 decoding automaton; `none` models a raised
`UnicodeDecodeError` (`bytes.decode('utf-8')`). -/
def utf8DecodeAux : Option (Nat × Nat × Nat × Nat) → List Nat → Option (List Nat)
  | none, [] => some []
  | some _, [] => none
  | none, b :: rest =>
    match utf8LeadAction b with
    | .emit c => (utf8DecodeAux none rest).map (c :: ·)
    | .start st => utf8DecodeAux (some st) rest
    | .bad => none
  | some (need, acc, lo, hi), b :: rest =>
    if lo ≤ b ∧ b ≤ hi then
      if need = 1 then (utf8DecodeAux none rest).map ((acc * 64 + (b - 0x80)) :: ·)
      else utf8DecodeAux (some (need - 1, acc * 64 + (b - 0x80), 0x80, 0xBF)) rest
    else none

/-- `bytes.decode('utf-8')`: strict UTF-8 decoding. -/
def utf8Decode (l : List Nat) : Option (List Nat) := utf8DecodeAux none l

/-- UTF-8 decoding automaton with `errors='ignore'`: a malformed maximal
subpart is skipped (the offending byte is reprocessed as a potential lead),
and a truncated final sequence is dropped — CPython's behaviour. -/
def utf8IgnoreAux : Option (Nat × Nat × Nat × Nat) → List Nat → List Nat
  | _, [] => []
  | none, b :: rest =>
    match utf8LeadAction b with
    | .emit c => c :: utf8IgnoreAux none rest
    | .start st => utf8IgnoreAux (some st) rest
    | .bad => utf8IgnoreAux none rest
  | some (need, acc, lo, hi), b :: rest =>
    if lo ≤ b ∧ b ≤ hi then
      if need = 1 then (acc * 64 + (b - 0x80)) :: utf8IgnoreAux none rest
      else utf8IgnoreAux (some (need - 1, acc * 64 + (b - 0x80), 0x80, 0xBF)) rest
    else
      match utf8LeadAction b with
      | .emit c => c :: utf8IgnoreAux none rest
      | .start st => utf8IgnoreAux (some st) rest
      | .bad => utf8IgnoreAux none rest

/-- `bytes.decode('utf-8', errors='ignore')`. -/
def utf8DecodeIgnore (l : List Nat) : List Nat := utf8IgnoreAux none l

/-- `str.strip('\x00')`: remove leading and trailing NUL code points. -/
def pyStripNul (s : PyStr) : PyStr :=
  ((s.dropWhile (· == 0)).reverse.dropWhile (· == 0)).reverse

/-! ### UTF-8 codec lemmas -/

theorem utf8DecodeAux_cons (b : Nat) (rest : List Nat) :
    utf8DecodeAux none (b :: rest) =
      match utf8LeadAction b with
      | .emit c => (utf8DecodeAux none rest).map (c :: ·)
      | .start st => utf8DecodeAux (some st) rest
      | .bad => none := rfl

theorem utf8IgnoreAux_cons (b : Nat) (rest : List Nat) :
    utf8IgnoreAux none (b :: rest) =
      match utf8LeadAction b with
      | .emit c => c :: utf8IgnoreAux none rest
      | .start st => utf8IgnoreAux (some st) rest
      | .bad => utf8IgnoreAux none rest := rfl

theorem utf8DecodeAux_cont (need acc lo hi b : Nat) (rest : List Nat) (h : lo ≤ b ∧ b ≤ hi) :
    utf8DecodeAux (some (need, acc, lo, hi)) (b :: rest) =
      if need = 1 then (utf8DecodeAux none rest).map ((acc * 64 + (b - 0x80)) :: ·)
      else utf8DecodeAux (some (need - 1, acc * 64 + (b - 0x80), 0x80, 0xBF)) rest := by
  simp only [utf8DecodeAux]
  rw [if_pos h]

theorem utf8IgnoreAux_cont (need acc lo hi b : Nat) (rest : List Nat) (h : lo ≤ b ∧ b ≤ hi) :
    utf8IgnoreAux (some (need, acc, lo, hi)) (b :: rest) =
      if need = 1 then (acc * 64 + (b - 0x80)) :: utf8IgnoreAux none rest
      else utf8IgnoreAux (some (need - 1, acc * 64 + (b - 0x80), 0x80, 0xBF)) rest := by
  simp only [utf8IgnoreAux]
  rw [if_pos h]

theorem utf8LeadAction_ascii (b : Nat) (h : b < 0x80) : utf8LeadAction b = .emit b := by
  simp [utf8LeadAction, h]

theorem utf8LeadAction_two (c : Nat) (h1 : 0x80 ≤ c) (h2 : c < 0x800) :
    utf8LeadAction (0xC0 + c / 64) = .start (1, c / 64, 0x80, 0xBF) := by
  unfold utf8LeadAction
  rw [if_neg (by omega), if_neg (by omega), if_pos (by omega)]
  simp

theorem utf8LeadAction_three (c : Nat) (h1 : 0x800 ≤ c) (h2 : c < 0x10000) :
    utf8LeadAction (0xE0 + c / 4096) =
      .start (2, c / 4096, if 0xE0 + c / 4096 = 0xE0 then 0xA0 else 0x80,
              if 0xE0 + c / 4096 = 0xED then 0x9F else 0xBF) := by
  unfold utf8LeadAction
  rw [if_neg (by omega), if_neg (by omega), if_neg (by omega), if_pos (by omega)]
  simp

theorem utf8LeadAction_four (c : Nat) (h1 : 0x10000 ≤ c) (h2 : c < 0x110000) :
    utf8LeadAction (0xF0 + c / 262144) =
      .start (3, c / 262144, if 0xF0 + c / 262144 = 0xF0 then 0x90 else 0x80,
              if 0xF0 + c / 262144 = 0xF4 then 0x8F else 0xBF) := by
  unfold utf8LeadAction
  rw [if_neg (by omega), if_neg (by omega), if_neg (by omega), if_neg (by omega),
      if_pos (by omega)]
  simp

/-- The strict decoder consumes one encoded scalar value and continues. -/
theorem utf8DecodeAux_encodeChar (c : Nat) (h : ScalarValue c) (bs : List Nat) :
    utf8DecodeAux none (utf8EncodeChar c ++ bs) = (utf8DecodeAux none bs).map (c :: ·) := by
  obtain ⟨hub, hsur⟩ := h
  by_cases h1 : c < 0x80
  · have e : utf8EncodeChar c = [c] := by simp [utf8EncodeChar, h1]
    rw [e, List.cons_append, List.nil_append, utf8DecodeAux_cons, utf8LeadAction_ascii c h1]
  · by_cases h2 : c < 0x800
    · have e : utf8EncodeChar c = [0xC0 + c / 64, 0x80 + c % 64] := by
        simp [utf8EncodeChar, h1, h2]
      rw [e, List.cons_append, List.cons_append, List.nil_append, utf8DecodeAux_cons,
          utf8LeadAction_two c (by omega) h2]
      simp only
      rw [utf8DecodeAux_cont _ _ _ _ _ _ ⟨by omega, by omega⟩, if_pos rfl]
      have : c / 64 * 64 + (0x80 + c % 64 - 0x80) = c := by omega
      rw [this]
    · by_cases h3 : c < 0x10000
      · have e : utf8EncodeChar c = [0xE0 + c / 4096, 0x80 + c / 64 % 64, 0x80 + c % 64] := by
          simp [utf8EncodeChar, h1, h2, h3]
        rw [e, List.cons_append, List.cons_append, List.cons_append, List.nil_append,
            utf8DecodeAux_cons, utf8LeadAction_three c (by omega) h3]
        simp only
        rw [utf8DecodeAux_cont _ _ _ _ _ _ (by constructor <;> split_ifs <;> omega),
            if_neg (by omega)]
        rw [utf8DecodeAux_cont _ _ _ _ _ _ ⟨by omega, by omega⟩, if_pos rfl]
        have : (c / 4096 * 64 + (0x80 + c / 64 % 64 - 0x80)) * 64 + (0x80 + c % 64 - 0x80) = c := by
          omega
        rw [this]
      · have e : utf8EncodeChar c =
            [0xF0 + c / 262144, 0x80 + c / 4096 % 64, 0x80 + c / 64 % 64, 0x80 + c % 64] := by
          simp [utf8EncodeChar, h1, h2, h3]
        rw [e, List.cons_append, List.cons_append, List.cons_append, List.cons_append,
            List.nil_append, utf8DecodeAux_cons, utf8LeadAction_four c (by omega) hub]
        simp only
        rw [utf8DecodeAux_cont _ _ _ _ _ _ (by constructor <;> split_ifs <;> omega),
            if_neg (by omega)]
        rw [utf8DecodeAux_cont _ _ _ _ _ _ ⟨by omega, by omega⟩, if_neg (by omega)]
        rw [utf8DecodeAux_cont _ _ _ _ _ _ ⟨by omega, by omega⟩, if_pos rfl]
        have : ((c / 262144 * 64 + (0x80 + c / 4096 % 64 - 0x80)) * 64 +
            (0x80 + c / 64 % 64 - 0x80)) * 64 + (0x80 + c % 64 - 0x80) = c := by
          omega
        rw [this]

/-- The lossy decoder consumes one encoded scalar value and continues. -/
theorem utf8IgnoreAux_encodeChar (c : Nat) (h : ScalarValue c) (bs : List Nat) :
    utf8IgnoreAux none (utf8EncodeChar c ++ bs) = c :: utf8IgnoreAux none bs := by
  obtain ⟨hub, hsur⟩ := h
  by_cases h1 : c < 0x80
  · have e : utf8EncodeChar c = [c] := by simp [utf8EncodeChar, h1]
    rw [e, List.cons_append, List.nil_append, utf8IgnoreAux_cons, utf8LeadAction_ascii c h1]
  · by_cases h2 : c < 0x800
    · have e : utf8EncodeChar c = [0xC0 + c / 64, 0x80 + c % 64] := by
        simp [utf8EncodeChar, h1, h2]
      rw [e, List.cons_append, List.cons_append, List.nil_append, utf8IgnoreAux_cons,
          utf8LeadAction_two c (by omega) h2]
      simp only
      rw [utf8IgnoreAux_cont _ _ _ _ _ _ ⟨by omega, by omega⟩, if_pos rfl]
      have : c / 64 * 64 + (0x80 + c % 64 - 0x80) = c := by omega
      rw [this]
    · by_cases h3 : c < 0x10000
      · have e : utf8EncodeChar c = [0xE0 + c / 4096, 0x80 + c / 64 % 64, 0x80 + c % 64] := by
          simp [utf8EncodeChar, h1, h2, h3]
        rw [e, List.cons_append, List.cons_append, List.cons_append, List.nil_append,
            utf8IgnoreAux_cons, utf8LeadAction_three c (by omega) h3]
        simp only
        rw [utf8IgnoreAux_cont _ _ _ _ _ _ (by constructor <;> split_ifs <;> omega),
            if_neg (by omega)]
        rw [utf8IgnoreAux_cont _ _ _ _ _ _ ⟨by omega, by omega⟩, if_pos rfl]
        have : (c / 4096 * 64 + (0x80 + c / 64 % 64 - 0x80)) * 64 + (0x80 + c % 64 - 0x80) = c := by
          omega
        rw [this]
      · have e : utf8EncodeChar c =
            [0xF0 + c / 262144, 0x80 + c / 4096 % 64, 0x80 + c / 64 % 64, 0x80 + c % 64] := by
          simp [utf8EncodeChar, h1, h2, h3]
        rw [e, List.cons_append, List.cons_append, List.cons_append, List.cons_append,
            List.nil_append, utf8IgnoreAux_cons, utf8LeadAction_four c (by omega) hub]
        simp only
        rw [utf8IgnoreAux_cont _ _ _ _ _ _ (by constructor <;> split_ifs <;> omega),
            if_neg (by omega)]
        rw [utf8IgnoreAux_cont _ _ _ _ _ _ ⟨by omega, by omega⟩, if_neg (by omega)]
        rw [utf8IgnoreAux_cont _ _ _ _ _ _ ⟨by omega, by omega⟩, if_pos rfl]
        have : ((c / 262144 * 64 + (0x80 + c / 4096 % 64 - 0x80)) * 64 +
            (0x80 + c / 64 % 64 - 0x80)) * 64 + (0x80 + c % 64 - 0x80) = c := by
          omega
        rw [this]

/-- Strict decoding inverts encoding on scalar strings. -/
theorem utf8Decode_utf8Encode (s : PyStr) (h : ∀ c ∈ s, ScalarValue c) :
    utf8Decode (utf8Encode s) = some s := by
  induction s with
  | nil => rfl
  | cons c rest ih =>
    have : utf8Encode (c :: rest) = utf8EncodeChar c ++ utf8Encode rest := by
      simp [utf8Encode]
    rw [utf8Decode, this, utf8DecodeAux_encodeChar c (h c (by simp)) _]
    have := ih (fun x hx => h x (by simp [hx]))
    rw [utf8Decode] at this
    rw [this]
    rfl

/-- Lossy decoding inverts encoding on scalar strings. -/
theorem utf8DecodeIgnore_utf8Encode (s : PyStr) (h : ∀ c ∈ s, ScalarValue c) :
    utf8DecodeIgnore (utf8Encode s) = s := by
  induction s with
  | nil => rfl
  | cons c rest ih =>
    have : utf8Encode (c :: rest) = utf8EncodeChar c ++ utf8Encode rest := by
      simp [utf8Encode]
    rw [utf8DecodeIgnore, this, utf8IgnoreAux_encodeChar c (h c (by simp)) _]
    have := ih (fun x hx => h x (by simp [hx]))
    rw [utf8DecodeIgnore] at this
    rw [this]

theorem utf8EncodeChar_length (c : Nat) :
    (utf8EncodeChar c).length =
      if c < 0x80 then 1 else if c < 0x800 then 2 else if c < 0x10000 then 3 else 4 := by
  unfold utf8EncodeChar
  split_ifs <;> rfl

/-- A strict initial fragment of one encoded character is wholly dropped by
lossy decoding. -/
theorem utf8IgnoreAux_encodeChar_take (c n : Nat) (h : ScalarValue c)
    (hn : n < (utf8EncodeChar c).length) :
    utf8IgnoreAux none ((utf8EncodeChar c).take n) = [] := by
  obtain ⟨hub, hsur⟩ := h
  rw [utf8EncodeChar_length] at hn
  by_cases h1 : c < 0x80
  · rw [if_pos h1] at hn
    interval_cases n
    rfl
  · by_cases h2 : c < 0x800
    · rw [if_neg h1, if_pos h2] at hn
      have e : utf8EncodeChar c = [0xC0 + c / 64, 0x80 + c % 64] := by
        simp [utf8EncodeChar, h1, h2]
      interval_cases n
      · rfl
      · rw [e]
        show utf8IgnoreAux none [0xC0 + c / 64] = []
        rw [utf8IgnoreAux_cons, utf8LeadAction_two c (by omega) h2]
        rfl
    · by_cases h3 : c < 0x10000
      · rw [if_neg h1, if_neg h2, if_pos h3] at hn
        have e : utf8EncodeChar c = [0xE0 + c / 4096, 0x80 + c / 64 % 64, 0x80 + c % 64] := by
          simp [utf8EncodeChar, h1, h2, h3]
        interval_cases n
        · rfl
        · rw [e]
          show utf8IgnoreAux none [0xE0 + c / 4096] = []
          rw [utf8IgnoreAux_cons, utf8LeadAction_three c (by omega) h3]
          rfl
        · rw [e]
          show utf8IgnoreAux none [0xE0 + c / 4096, 0x80 + c / 64 % 64] = []
          rw [utf8IgnoreAux_cons, utf8LeadAction_three c (by omega) h3]
          simp only
          rw [utf8IgnoreAux_cont _ _ _ _ _ _ (by constructor <;> split_ifs <;> omega),
              if_neg (by omega)]
          rfl
      · rw [if_neg h1, if_neg h2, if_neg h3] at hn
        have e : utf8EncodeChar c =
            [0xF0 + c / 262144, 0x80 + c / 4096 % 64, 0x80 + c / 64 % 64, 0x80 + c % 64] := by
          simp [utf8EncodeChar, h1, h2, h3]
        interval_cases n
        · rfl
        · rw [e]
          show utf8IgnoreAux none [0xF0 + c / 262144] = []
          rw [utf8IgnoreAux_cons, utf8LeadAction_four c (by omega) hub]
          rfl
        · rw [e]
          show utf8IgnoreAux none [0xF0 + c / 262144, 0x80 + c / 4096 % 64] = []
          rw [utf8IgnoreAux_cons, utf8LeadAction_four c (by omega) hub]
          simp only
          rw [utf8IgnoreAux_cont _ _ _ _ _ _ (by constructor <;> split_ifs <;> omega),
              if_neg (by omega)]
          rfl
        · rw [e]
          show utf8IgnoreAux none
              [0xF0 + c / 262144, 0x80 + c / 4096 % 64, 0x80 + c / 64 % 64] = []
          rw [utf8IgnoreAux_cons, utf8LeadAction_four c (by omega) hub]
          simp only
          rw [utf8IgnoreAux_cont _ _ _ _ _ _ (by constructor <;> split_ifs <;> omega),
              if_neg (by omega)]
          rw [utf8IgnoreAux_cont _ _ _ _ _ _ ⟨by omega, by omega⟩, if_neg (by omega)]
          rfl

/-- Lossy decoding of a truncated encoding yields a prefix of the original
string whose own encoding fits within the truncation limit. -/
theorem utf8DecodeIgnore_take_encode (s : PyStr) (h : ∀ c ∈ s, ScalarValue c) (n : Nat) :
    ∃ t, t <+: s ∧ utf8DecodeIgnore ((utf8Encode s).take n) = t ∧
      (utf8Encode t).length ≤ n := by
  induction s generalizing n with
  | nil => exact ⟨[], List.nil_prefix, by simp [utf8Encode, utf8DecodeIgnore, utf8IgnoreAux], by
      simp [utf8Encode]⟩
  | cons c rest ih =>
    have hc : ScalarValue c := h c (by simp)
    have hrest : ∀ x ∈ rest, ScalarValue x := fun x hx => h x (by simp [hx])
    have esplit : utf8Encode (c :: rest) = utf8EncodeChar c ++ utf8Encode rest := by
      simp [utf8Encode]
    by_cases hk : (utf8EncodeChar c).length ≤ n
    · obtain ⟨t, hpre, hdec, hlen⟩ := ih hrest (n - (utf8EncodeChar c).length)
      refine ⟨c :: t, ?_, ?_, ?_⟩
      · obtain ⟨u, hu⟩ := hpre
        exact ⟨u, by rw [List.cons_append, hu]⟩
      · rw [esplit, List.take_append_eq_append_take,
            List.take_of_length_le hk]
        rw [utf8DecodeIgnore, utf8IgnoreAux_encodeChar c hc]
        rw [utf8DecodeIgnore] at hdec
        rw [hdec]
      · have : utf8Encode (c :: t) = utf8EncodeChar c ++ utf8Encode t := by
          simp [utf8Encode]
        rw [this, List.length_append]
        omega
    · refine ⟨[], List.nil_prefix, ?_, by simp [utf8Encode]⟩
      rw [esplit, List.take_append_of_le_length (by omega)]
      exact utf8IgnoreAux_encodeChar_take c n hc (by omega)

/-! ### Python runtime bits -/

/-- The Python exception classes raised by the embedded code.  In CPython,
`UnicodeDecodeError` is a subclass of `ValueError`; `IndexError`,
`OverflowError` and `AttributeError` are not. -/
inductive PyExc where
  | valueError (msg : String)
  | unicodeDecodeError
  | indexError
  | overflowError
  | attributeError (name : String)
deriving DecidableEq, Repr

instance {ε α : Type} [DecidableEq ε] [DecidableEq α] : DecidableEq (Except ε α) := fun a b =>
  match a, b with
  | .ok x, .ok y => if h : x = y then .isTrue (by rw [h]) else .isFalse (by simp [h])
  | .error x, .error y => if h : x = y then .isTrue (by rw [h]) else .isFalse (by simp [h])
  | .ok _, .error _ => .isFalse (by simp)
  | .error _, .ok _ => .isFalse (by simp)

/-- `isinstance(e, ValueError)`: what an `except ValueError` clause catches. -/
def PyExc.isValueError : PyExc → Bool
  | .valueError _ => true
  | .unicodeDecodeError => true
  | _ => false

/-- `n.to_bytes(length, byteorder='big')`; raises `OverflowError` when `n`
does not fit. -/
def intToBytes (n len : Nat) : Except PyExc (List Nat) :=
  if n < 256 ^ len then .ok ((List.range len).reverse.map fun i => n / 256 ^ i % 256)
  else .error .overflowError

/-- `int.from_bytes(bs, 'big')`. -/
def intFromBytes (bs : List Nat) : Nat := bs.foldl (fun a b => a * 256 + b) 0

/-- ASCII decimal digit. -/
def isAsciiDigit (c : Nat) : Bool := 48 ≤ c && c ≤ 57

/-- `int(s)` restricted to the plain digit strings this codec manipulates;
anything else raises `ValueError`. -/
def pyInt (s : PyStr) : Except PyExc Nat :=
  if s ≠ [] ∧ s.all isAsciiDigit then .ok (s.foldl (fun a c => a * 10 + (c - 48)) 0)
  else .error (.valueError "invalid literal for int")

/-- `str(b)` for a byte value (an element of a Python `bytes` object, hence
below 256): one to three decimal digits, no padding. -/
def byteToDecStr (b : Nat) : PyStr :=
  if b < 10 then [48 + b]
  else if b < 100 then [48 + b / 10, 48 + b % 10]
  else [48 + b / 100, 48 + b / 10 % 10, 48 + b % 10]

/-- `s.split('.')` on a Python string. -/
def pySplitDot : PyStr → List PyStr
  | [] => [[]]
  | c :: rest =>
    if c = 46 then [] :: pySplitDot rest
    else
      match pySplitDot rest with
      | g :: gs => (c :: g) :: gs
      | [] => [[c]]

/-- Greedy match of one to three ASCII digits at the head of the string,
returning the remainder.  For the pattern `\d«1,3»\.` repeated below,
greedy matching without backtracking coincides with the regex semantics:
a shorter digit match is always followed by another digit, never by `.`. -/
def matchDigits13 (s : PyStr) : Option PyStr :=
  match s with
  | c1 :: rest1 =>
    if isAsciiDigit c1 then
      match rest1 with
      | c2 :: rest2 =>
        if isAsciiDigit c2 then
          match rest2 with
          | c3 :: rest3 => if isAsciiDigit c3 then some rest3 else some rest2
          | [] => some []
        else some rest1
      | [] => some []
    else none
  | [] => none

/-- Require a literal dot. -/
def expectDot : PyStr → Option PyStr
  | 46 :: rest => some rest
  | _ => none

/-- `re.match(r"\d«1,3»\.\d«1,3»\.\d«1,3»\.\d«1,3»", s)` as a Boolean:
a prefix match, as `re.match` anchors only at the start. -/
def ipv4RegexMatch (s : PyStr) : Bool :=
  (do
    let r1 ← matchDigits13 s
    let r2 ← expectDot r1
    let r3 ← matchDigits13 r2
    let r4 ← expectDot r3
    let r5 ← matchDigits13 r4
    let r6 ← expectDot r5
    let _ ← matchDigits13 r6
    pure ()).isSome

/-- Python `str.strip()` whitespace class (the cases relevant to IPv4 text). -/
def isPySpace (c : Nat) : Bool := c = 32 || c = 9 || c = 10 || c = 13 || c = 11 || c = 12

/-- `s.strip()`. -/
def pyStripWs (s : PyStr) : PyStr :=
  ((s.dropWhile isPySpace).reverse.dropWhile isPySpace).reverse

/-! ### protocol.py -/

/-- `protocol.ip_address_to_bytes`: regex check, then split on dots, convert
each component with `int(...)` and emit one byte each.  `ValueError` and any
other conversion exception (e.g. `OverflowError` from `to_bytes`) are
re-raised as `ValueError`. -/
def ip_address_to_bytes (ip : PyStr) : Except PyExc (List Nat) :=
  if ¬ ipv4RegexMatch ip then .error (.valueError "Invalid IP address")
  else
    match (pySplitDot ip).mapM (fun octet => do
        let n ← pyInt octet
        intToBytes n 1) with
    | .ok parts => .ok parts.flatten
    | .error _ => .error (.valueError "Invalid IP address")

/-- `protocol.to_byte_string`: UTF-8 encode, truncate to `maximumLength`
octets, decode with `errors='ignore'` (dropping a partially-cut character),
re-encode. -/
def to_byte_string (s : PyStr) (maximumLength : Nat) : List Nat :=
  utf8Encode (utf8DecodeIgnore ((utf8Encode s).take maximumLength))

/-- `protocol.to_pascal_like_byte_string`: 1-byte length field followed by
the (at most 64 octet) string bytes. -/
def to_pascal_like_byte_string (s : PyStr) : Except PyExc (List Nat) := do
  let bs := to_byte_string s 64
  let lb ← intToBytes bs.length 1
  .ok (lb ++ bs)

def midiMark : List Nat := [77, 73, 68, 73]

def MIDI_MESSAGE_PACKET_HEADER : List Nat := [77, 73, 68, 73, 1, 0]

def HELLO_PACKET_HEADER : List Nat := [77, 73, 68, 73, 1, 1]

def HELLO_REPLY_PACKET_HEADER : List Nat := [77, 73, 68, 73, 1, 2]

def VERSION_NUMBER : Nat := 1

/-- `Parser.read`.  The parser's `(data, position)` pair is represented by
the not-yet-consumed suffix of `data`; `position + length > len(data)`
is exactly `length > ` the suffix length. -/
def parserRead (n : Nat) (data : List Nat) : Except PyExc (List Nat × List Nat) :=
  if data.length < n then
    .error (.valueError "Error parsing MIDI over LAN packet: Not enough data to read")
  else .ok (data.take n, data.drop n)

/-- `Parser.read_id`: 4 bytes, big endian. -/
def parserReadId (data : List Nat) : Except PyExc (Nat × List Nat) := do
  let (bs, rest) ← parserRead 4 data
  .ok (intFromBytes bs, rest)

/-- `Parser.read_ip_address`: 4 bytes joined as a dotted decimal string. -/
def parserReadIpAddress (data : List Nat) : Except PyExc (PyStr × List Nat) := do
  let (bs, rest) ← parserRead 4 data
  .ok (List.intercalate [46] (bs.map byteToDecStr), rest)

/-- `Parser.read_string` (and the verbatim-identical `Parser.read_hostname`):
1-byte length, that many bytes, strict UTF-8 decode re-raised as a
`ValueError`, then `strip('\x00')`. -/
def parserReadString (data : List Nat) : Except PyExc (PyStr × List Nat) := do
  let (lb, rest) ← parserRead 1 data
  let (sb, rest2) ← parserRead (intFromBytes lb) rest
  match utf8Decode sb with
  | some cps => .ok (pyStripNul cps, rest2)
  | none => .error (.valueError "Invalid unicode string")

/-- The loop inside `Parser.read_list_of_strings`. -/
def parserReadStringsLoop : Nat → List Nat → Except PyExc (List PyStr × List Nat)
  | 0, data => .ok ([], data)
  | k + 1, data => do
    let (s, rest) ← parserReadString data
    let (ss, rest2) ← parserReadStringsLoop k rest
    .ok (s :: ss, rest2)

/-- `Parser.read_list_of_strings`: 1-byte count, then that many strings. -/
def parserReadListOfStrings (data : List Nat) : Except PyExc (List PyStr × List Nat) := do
  let (nb, rest) ← parserRead 1 data
  parserReadStringsLoop (intFromBytes nb) rest

/-- `Parser.check_header`: mark, version and type checks; afterwards the
parse position is 6. -/
def checkHeader (data : List Nat) : Except PyExc (Nat × List Nat) :=
  if data.length < 6 then .error (.valueError "MIDI over LAN packet is too short")
  else if data.take 4 ≠ midiMark then
    .error (.valueError "Invalid MIDI over LAN packet header")
  else if data.getD 4 0 ≠ VERSION_NUMBER then
    .error (.valueError "Invalid MIDI over LAN packet version")
  else if data.getD 5 0 = 0 ∨ data.getD 5 0 = 1 ∨ data.getD 5 0 = 2 then
    .ok (data.getD 5 0, data.drop 6)
  else .error (.valueError "Unknown MIDI over LAN packet type")

/-- The claim-relevant payload of `protocol.MidiMessagePacket` (the class
fields `header_mark`, `version`, `packet_type` and `header` are the fixed
per-variant constants and are kept implicit). -/
structure MidiMessagePacket where
  device_name : PyStr
  midi_data : List Nat
deriving DecidableEq, Repr

/-- Payload of `protocol.HelloPacket`. -/
structure HelloPacket where
  id : Nat
  hostname : PyStr
  number_of_device_names : Nat
  device_names : List PyStr
deriving DecidableEq, Repr

/-- Payload of `protocol.HelloReplyPacket`; `id` is an `Int` because the
dataclass default is `-1`, meaning unset. -/
structure HelloReplyPacket where
  id : Int
  remote_ip : PyStr
  hostname : PyStr
  number_of_device_names : Nat
  device_names : List PyStr
deriving DecidableEq, Repr

/-- The tagged union that `Packet.from_bytes` returns. -/
inductive ParsedPacket where
  | midi (p : MidiMessagePacket)
  | hello (p : HelloPacket)
  | helloReply (p : HelloReplyPacket)
deriving DecidableEq, Repr

/-- The string `'unknown'`. -/
def unknownStr : PyStr := [117, 110, 107, 110, 111, 119, 110]

/-- `MidiMessagePacket.from_bytes`.  A buffer not starting with the 6-byte
MIDI-message header is taken as raw MIDI data; `data[6]` on an exactly
6-byte buffer raises `IndexError`; the device-name slice is decoded with
strict UTF-8 (an uncaught `UnicodeDecodeError`). -/
def MidiMessagePacket.from_bytes (data : List Nat) : Except PyExc MidiMessagePacket :=
  if data.take 6 ≠ MIDI_MESSAGE_PACKET_HEADER then .ok ⟨unknownStr, data⟩
  else if data.length ≤ 6 then .error .indexError
  else
    let device_name_length := data.getD 6 0
    if data.length < 6 + 1 + device_name_length + 1 then
      .error (.valueError "MIDI over LAN packet is too short")
    else
      match utf8Decode ((data.drop 7).take device_name_length) with
      | some cps => .ok ⟨pyStripNul cps, data.drop (7 + device_name_length)⟩
      | none => .error .unicodeDecodeError

/-- `HelloPacket.from_bytes`. -/
def HelloPacket.from_bytes (data : List Nat) : Except PyExc HelloPacket := do
  let (ptype, rest) ← checkHeader data
  if ptype ≠ 1 then
    .error (.valueError "Invalid MIDI over LAN packet type (expected Hello packet)")
  else
    let (pid, rest1) ← parserReadId rest
    let (host, rest2) ← parserReadString rest1
    let (names, _rest3) ← parserReadListOfStrings rest2
    .ok ⟨pid, host, names.length, names⟩

/-- `HelloReplyPacket.from_bytes`. -/
def HelloReplyPacket.from_bytes (data : List Nat) : Except PyExc HelloReplyPacket := do
  let (ptype, rest) ← checkHeader data
  if ptype ≠ 2 then
    .error (.valueError "Invalid MIDI over LAN packet type (expected Hello Reply packet)")
  else
    let (pid, rest1) ← parserReadId rest
    let (rip, rest2) ← parserReadIpAddress rest1
    let (host, rest3) ← parserReadString rest2
    let (names, _rest4) ← parserReadListOfStrings rest3
    .ok ⟨Int.ofNat pid, rip, host, names.length, names⟩

/-- `Packet.from_bytes`: raw-MIDI fallback for short or unmarked buffers,
version check, then dispatch on the packet type (the `match` arms appear in
the source order Hello, Hello-Reply, MIDI-message, wildcard). -/
def Packet.from_bytes (data : List Nat) : Except PyExc ParsedPacket :=
  if data.length < 6 then .ok (.midi ⟨unknownStr, data⟩)
  else if data.take 4 ≠ midiMark then .ok (.midi ⟨unknownStr, data⟩)
  else if data.getD 4 0 ≠ VERSION_NUMBER then
    .error (.valueError "Invalid MIDI over LAN packet version")
  else if data.getD 5 0 = 1 then (HelloPacket.from_bytes data).map .hello
  else if data.getD 5 0 = 2 then (HelloReplyPacket.from_bytes data).map .helloReply
  else if data.getD 5 0 = 0 then (MidiMessagePacket.from_bytes data).map .midi
  else .error (.valueError "Unknown MIDI over LAN packet type")

/-- `MidiMessagePacket.to_bytes`. -/
def MidiMessagePacket.to_bytes (p : MidiMessagePacket) : Except PyExc (List Nat) := do
  let dn := to_byte_string p.device_name 64
  let lb ← intToBytes dn.length 1
  .ok (MIDI_MESSAGE_PACKET_HEADER ++ lb ++ dn ++ p.midi_data)

/-- `HelloPacket.to_bytes`. -/
def HelloPacket.to_bytes (p : HelloPacket) : Except PyExc (List Nat) := do
  let idb ← intToBytes p.id 4
  let hostb ← to_pascal_like_byte_string p.hostname
  let cntb ← intToBytes p.device_names.length 1
  let nameb ← p.device_names.mapM to_pascal_like_byte_string
  .ok (HELLO_PACKET_HEADER ++ idb ++ hostb ++ cntb ++ nameb.flatten)

/-- `HelloReplyPacket.to_bytes`: explicit unset-`id` and unset-`remote_ip`
checks, then the wire fields. -/
def HelloReplyPacket.to_bytes (p : HelloReplyPacket) : Except PyExc (List Nat) := do
  if p.id < 0 then .error (.valueError "ID is not set")
  else if p.remote_ip = [] then .error (.valueError "IP address is not set")
  else
    let idb ← intToBytes p.id.toNat 4
    let ipb ← ip_address_to_bytes p.remote_ip
    let hostb ← to_pascal_like_byte_string p.hostname
    let cntb ← intToBytes p.device_names.length 1
    let nameb ← p.device_names.mapM to_pascal_like_byte_string
    .ok (HELLO_REPLY_PACKET_HEADER ++ idb ++ ipb ++ hostb ++ cntb ++ nameb.flatten)

/-! ### Codec round-trip lemmas -/

/-- A string field that the wire format carries faithfully: scalar code
points, at most 64 octets of UTF-8, and unchanged by NUL stripping. -/
def WfStr (s : PyStr) : Prop :=
  (∀ c ∈ s, ScalarValue c) ∧ (utf8Encode s).length ≤ 64 ∧ pyStripNul s = s

instance (s : PyStr) : Decidable (WfStr s) := by
  unfold WfStr; infer_instance

theorem intToBytes_one (n : Nat) (h : n < 256) : intToBytes n 1 = .ok [n] := by
  unfold intToBytes
  rw [if_pos (by omega)]
  simp [List.range_succ, Nat.mod_eq_of_lt h]

theorem intToBytes_four (n : Nat) (h : n < 4294967296) :
    intToBytes n 4 = .ok [n / 16777216 % 256, n / 65536 % 256, n / 256 % 256, n % 256] := by
  unfold intToBytes
  rw [if_pos (by omega)]
  simp [List.range_succ]

theorem intFromBytes_four (n : Nat) :
    intFromBytes [n / 16777216 % 256, n / 65536 % 256, n / 256 % 256, n % 256] = n % 4294967296 := by
  simp [intFromBytes]
  omega

theorem to_byte_string_short (s : PyStr) (hsc : ∀ c ∈ s, ScalarValue c)
    (hlen : (utf8Encode s).length ≤ 64) : to_byte_string s 64 = utf8Encode s := by
  unfold to_byte_string
  rw [List.take_of_length_le hlen, utf8DecodeIgnore_utf8Encode s hsc]

theorem exceptBind_ok {ε α β : Type} (x : α) (f : α → Except ε β) :
    (Except.ok x >>= f : Except ε β) = f x := rfl

/-- One Pascal-like string on the wire, as the encoders lay it out. -/
def pascalBytes (s : PyStr) : List Nat := (utf8Encode s).length :: utf8Encode s

theorem to_pascal_like_byte_string_wf (s : PyStr) (hsc : ∀ c ∈ s, ScalarValue c)
    (hlen : (utf8Encode s).length ≤ 64) :
    to_pascal_like_byte_string s = .ok (pascalBytes s) := by
  simp only [to_pascal_like_byte_string]
  rw [to_byte_string_short s hsc hlen, intToBytes_one _ (by omega)]
  rfl

theorem intFromBytes_one (b : Nat) : intFromBytes [b] = b := by
  simp [intFromBytes]

theorem parserRead_exact (bs rest : List Nat) :
    parserRead bs.length (bs ++ rest) = .ok (bs, rest) := by
  unfold parserRead
  rw [if_neg (by simp)]
  rw [List.take_left, List.drop_left]

theorem parserReadString_pascal (s : PyStr) (hsc : ∀ c ∈ s, ScalarValue c)
    (_hlen : (utf8Encode s).length ≤ 64) (hnul : pyStripNul s = s) (rest : List Nat) :
    parserReadString (pascalBytes s ++ rest) = .ok (s, rest) := by
  unfold parserReadString
  have h1 : parserRead 1 (pascalBytes s ++ rest) =
      .ok ([(utf8Encode s).length], utf8Encode s ++ rest) := by
    have := parserRead_exact [(utf8Encode s).length] (utf8Encode s ++ rest)
    simpa [pascalBytes] using this
  rw [h1, exceptBind_ok]
  simp only [intFromBytes_one]
  rw [parserRead_exact (utf8Encode s) rest, exceptBind_ok]
  simp only
  rw [utf8Decode_utf8Encode s hsc]
  simp [hnul]

theorem parserReadStringsLoop_pascal (names : List PyStr) (h : ∀ s ∈ names, WfStr s)
    (rest : List Nat) :
    parserReadStringsLoop names.length ((names.map pascalBytes).flatten ++ rest) =
      .ok (names, rest) := by
  induction names generalizing rest with
  | nil => simp [parserReadStringsLoop]
  | cons s ss ih =>
    obtain ⟨hsc, hlen, hnul⟩ := h s (by simp)
    simp only [List.map_cons, List.flatten_cons, List.length_cons, List.append_assoc]
    unfold parserReadStringsLoop
    rw [parserReadString_pascal s hsc hlen hnul, exceptBind_ok]
    dsimp only
    rw [ih (fun x hx => h x (by simp [hx])), exceptBind_ok]

theorem mapM_pascal (names : List PyStr) (h : ∀ s ∈ names, WfStr s) :
    names.mapM to_pascal_like_byte_string = .ok (names.map pascalBytes) := by
  induction names with
  | nil => rfl
  | cons s ss ih =>
    obtain ⟨hsc, hlen, _⟩ := h s (by simp)
    rw [List.mapM_cons, to_pascal_like_byte_string_wf s hsc hlen]
    rw [ih (fun x hx => h x (by simp [hx]))]
    rfl

/-! ### Dotted-quad lemmas -/

/-- The canonical dotted-decimal rendering of four octets — exactly what
`Parser.read_ip_address` produces. -/
def canonicalIpStr (a b c d : Nat) : PyStr :=
  List.intercalate [46] [byteToDecStr a, byteToDecStr b, byteToDecStr c, byteToDecStr d]

theorem canonicalIpStr_eq (a b c d : Nat) :
    canonicalIpStr a b c d =
      byteToDecStr a ++ 46 :: (byteToDecStr b ++ 46 :: (byteToDecStr c ++ 46 :: byteToDecStr d)) := by
  simp [canonicalIpStr, List.intercalate]

theorem pyInt_byteToDecStr (b : Nat) (h : b < 256) : pyInt (byteToDecStr b) = .ok b := by
  by_cases h1 : b < 10
  · have e : byteToDecStr b = [48 + b] := by simp [byteToDecStr, h1]
    rw [e]
    unfold pyInt
    rw [if_pos ⟨by simp, by simp [isAsciiDigit]; omega⟩]
    simp only [List.foldl, Except.ok.injEq]
    omega
  · by_cases h2 : b < 100
    · have e : byteToDecStr b = [48 + b / 10, 48 + b % 10] := by simp [byteToDecStr, h1, h2]
      rw [e]
      unfold pyInt
      rw [if_pos ⟨by simp, by simp [isAsciiDigit]; omega⟩]
      simp only [List.foldl, Except.ok.injEq]
      omega
    · have e : byteToDecStr b = [48 + b / 100, 48 + b / 10 % 10, 48 + b % 10] := by
        simp [byteToDecStr, h1, h2]
      rw [e]
      unfold pyInt
      rw [if_pos ⟨by simp, by simp [isAsciiDigit]; omega⟩]
      simp only [List.foldl, Except.ok.injEq]
      omega

theorem byteToDecStr_digits (b : Nat) (h : b < 256) :
    ∀ c ∈ byteToDecStr b, isAsciiDigit c = true := by
  unfold byteToDecStr
  split_ifs <;> simp [isAsciiDigit] <;> omega

theorem byteToDecStr_no_dot (b : Nat) (h : b < 256) : ∀ c ∈ byteToDecStr b, c ≠ 46 := by
  intro c hc
  have := byteToDecStr_digits b h c hc
  simp [isAsciiDigit] at this
  omega

theorem byteToDecStr_length (b : Nat) :
    1 ≤ (byteToDecStr b).length ∧ (byteToDecStr b).length ≤ 3 := by
  unfold byteToDecStr
  split_ifs <;> simp

theorem pySplitDot_ne_nil (l : PyStr) : pySplitDot l ≠ [] := by
  induction l with
  | nil => simp [pySplitDot]
  | cons c rest ih =>
    unfold pySplitDot
    split_ifs
    · simp
    · rcases e : pySplitDot rest with _ | ⟨g, gs⟩
      · exact absurd e ih
      · simp [e]

theorem pySplitDot_no_dot (g : PyStr) (h : ∀ c ∈ g, c ≠ 46) : pySplitDot g = [g] := by
  induction g with
  | nil => rfl
  | cons c rest ih =>
    unfold pySplitDot
    rw [if_neg (h c (by simp))]
    rw [ih (fun x hx => h x (by simp [hx]))]

theorem pySplitDot_append (g rs : PyStr) (h : ∀ c ∈ g, c ≠ 46) :
    pySplitDot (g ++ 46 :: rs) = g :: pySplitDot rs := by
  induction g with
  | nil =>
    simp only [List.nil_append]
    conv_lhs => unfold pySplitDot
    rw [if_pos rfl]
  | cons c rest ih =>
    simp only [List.cons_append]
    conv_lhs => unfold pySplitDot
    rw [if_neg (h c (by simp))]
    rw [ih (fun x hx => h x (by simp [hx]))]

theorem optionBind_some {α β : Type} (x : α) (f : α → Option β) :
    (Option.some x >>= f) = f x := rfl

theorem matchDigits13_dot (ds rs : PyStr) (hlen : 1 ≤ ds.length ∧ ds.length ≤ 3)
    (hdig : ∀ c ∈ ds, isAsciiDigit c = true) :
    matchDigits13 (ds ++ 46 :: rs) = some (46 :: rs) := by
  have h46 : isAsciiDigit 46 = false := by simp [isAsciiDigit]
  rcases ds with _ | ⟨d1, _ | ⟨d2, _ | ⟨d3, tail⟩⟩⟩
  · simp at hlen
  · have h1 := hdig d1 (by simp)
    simp [matchDigits13, h1, h46]
  · have h1 := hdig d1 (by simp)
    have h2 := hdig d2 (by simp)
    simp [matchDigits13, h1, h2, h46]
  · have htail : tail = [] := by
      rcases tail with _ | _
      · rfl
      · simp at hlen
    subst htail
    have h1 := hdig d1 (by simp)
    have h2 := hdig d2 (by simp)
    have h3 := hdig d3 (by simp)
    simp [matchDigits13, h1, h2, h3, h46]

theorem matchDigits13_nil (ds : PyStr) (hlen : 1 ≤ ds.length ∧ ds.length ≤ 3)
    (hdig : ∀ c ∈ ds, isAsciiDigit c = true) :
    matchDigits13 ds = some [] := by
  rcases ds with _ | ⟨d1, _ | ⟨d2, _ | ⟨d3, tail⟩⟩⟩
  · simp at hlen
  · have h1 := hdig d1 (by simp)
    simp [matchDigits13, h1]
  · have h1 := hdig d1 (by simp)
    have h2 := hdig d2 (by simp)
    simp [matchDigits13, h1, h2]
  · have htail : tail = [] := by
      rcases tail with _ | _
      · rfl
      · simp at hlen
    subst htail
    have h1 := hdig d1 (by simp)
    have h2 := hdig d2 (by simp)
    have h3 := hdig d3 (by simp)
    simp [matchDigits13, h1, h2, h3]

theorem ipv4RegexMatch_canonical (a b c d : Nat) (ha : a < 256) (hb : b < 256)
    (hc : c < 256) (hd : d < 256) :
    ipv4RegexMatch (canonicalIpStr a b c d) = true := by
  unfold ipv4RegexMatch
  rw [canonicalIpStr_eq]
  rw [matchDigits13_dot _ _ (byteToDecStr_length a) (byteToDecStr_digits a ha), optionBind_some]
  rw [show expectDot (46 :: (byteToDecStr b ++ 46 :: (byteToDecStr c ++ 46 :: byteToDecStr d))) =
      some (byteToDecStr b ++ 46 :: (byteToDecStr c ++ 46 :: byteToDecStr d)) from rfl,
    optionBind_some]
  rw [matchDigits13_dot _ _ (byteToDecStr_length b) (byteToDecStr_digits b hb), optionBind_some]
  rw [show expectDot (46 :: (byteToDecStr c ++ 46 :: byteToDecStr d)) =
      some (byteToDecStr c ++ 46 :: byteToDecStr d) from rfl, optionBind_some]
  rw [matchDigits13_dot _ _ (byteToDecStr_length c) (byteToDecStr_digits c hc), optionBind_some]
  rw [show expectDot (46 :: byteToDecStr d) = some (byteToDecStr d) from rfl, optionBind_some]
  rw [matchDigits13_nil _ (byteToDecStr_length d) (byteToDecStr_digits d hd), optionBind_some]
  rfl

theorem ip_address_to_bytes_canonical (a b c d : Nat) (ha : a < 256) (hb : b < 256)
    (hc : c < 256) (hd : d < 256) :
    ip_address_to_bytes (canonicalIpStr a b c d) = .ok [a, b, c, d] := by
  unfold ip_address_to_bytes
  rw [if_neg (by rw [ipv4RegexMatch_canonical a b c d ha hb hc hd]; simp)]
  have hsplit : pySplitDot (canonicalIpStr a b c d) =
      [byteToDecStr a, byteToDecStr b, byteToDecStr c, byteToDecStr d] := by
    rw [canonicalIpStr_eq]
    rw [pySplitDot_append _ _ (byteToDecStr_no_dot a ha)]
    rw [pySplitDot_append _ _ (byteToDecStr_no_dot b hb)]
    rw [pySplitDot_append _ _ (byteToDecStr_no_dot c hc)]
    rw [pySplitDot_no_dot _ (byteToDecStr_no_dot d hd)]
  rw [hsplit]
  have comp : ∀ x : Nat, x < 256 →
      (do
        let n ← pyInt (byteToDecStr x)
        intToBytes n 1 : Except PyExc (List Nat)) = .ok [x] := by
    intro x hx
    rw [pyInt_byteToDecStr x hx, exceptBind_ok, intToBytes_one x hx]
  rw [List.mapM_cons, comp a ha, List.mapM_cons, comp b hb, List.mapM_cons, comp c hc,
      List.mapM_cons, comp d hd]
  rfl

theorem parserReadIpAddress_bytes (a b c d : Nat) (rest : List Nat) :
    parserReadIpAddress ([a, b, c, d] ++ rest) = .ok (canonicalIpStr a b c d, rest) := by
  unfold parserReadIpAddress
  have h4 : parserRead 4 ([a, b, c, d] ++ rest) = .ok ([a, b, c, d], rest) :=
    parserRead_exact [a, b, c, d] rest
  rw [h4, exceptBind_ok]
  rfl

/-- The big-endian 4-byte rendering of a 32-bit id. -/
def idBytes (n : Nat) : List Nat :=
  [n / 16777216 % 256, n / 65536 % 256, n / 256 % 256, n % 256]

theorem intToBytes_idBytes (n : Nat) (h : n < 4294967296) :
    intToBytes n 4 = .ok (idBytes n) := by
  rw [intToBytes_four n h]
  rfl

theorem parserReadId_idBytes (n : Nat) (h : n < 4294967296) (rest : List Nat) :
    parserReadId (idBytes n ++ rest) = .ok (n, rest) := by
  unfold parserReadId
  have h4 : parserRead 4 (idBytes n ++ rest) = .ok (idBytes n, rest) :=
    parserRead_exact (idBytes n) rest
  rw [h4, exceptBind_ok]
  dsimp only
  have : intFromBytes (idBytes n) = n := by
    have := intFromBytes_four n
    rw [show idBytes n =
        [n / 16777216 % 256, n / 65536 % 256, n / 256 % 256, n % 256] from rfl, this]
    omega
  rw [this]

theorem checkHeader_ok (t : Nat) (ht : t = 0 ∨ t = 1 ∨ t = 2) (payload : List Nat) :
    checkHeader (77 :: 73 :: 68 :: 73 :: 1 :: t :: payload) = .ok (t, payload) := by
  unfold checkHeader
  rw [if_neg (by simp), if_neg (by simp [midiMark]), if_neg (by simp [VERSION_NUMBER]),
      if_pos (by simpa using ht)]
  simp

/-- Round trip for MIDI-message packets with a well-formed device name and
non-empty MIDI data. -/
theorem midiMessage_roundtrip (p : MidiMessagePacket) (hname : WfStr p.device_name)
    (hmidi : p.midi_data ≠ []) :
    ∃ bs, MidiMessagePacket.to_bytes p = .ok bs ∧ Packet.from_bytes bs = .ok (.midi p) := by
  obtain ⟨hsc, hlen, hnul⟩ := hname
  obtain ⟨name, md⟩ := p
  simp only at hsc hlen hnul hmidi
  refine ⟨77 :: 73 :: 68 :: 73 :: 1 :: 0 :: (utf8Encode name).length ::
    (utf8Encode name ++ md), ?_, ?_⟩
  · simp only [MidiMessagePacket.to_bytes]
    rw [to_byte_string_short name hsc hlen, intToBytes_one _ (by omega), exceptBind_ok]
    rfl
  · unfold Packet.from_bytes
    rw [if_neg (by simp), if_neg (by simp [midiMark]), if_neg (by simp [VERSION_NUMBER]),
        if_neg (by simp), if_neg (by simp), if_pos (by simp)]
    unfold MidiMessagePacket.from_bytes
    rw [if_neg (by simp [MIDI_MESSAGE_PACKET_HEADER]), if_neg (by simp)]
    have hgd : (77 :: 73 :: 68 :: 73 :: 1 :: 0 :: (utf8Encode name).length ::
        (utf8Encode name ++ md)).getD 6 0 = (utf8Encode name).length := rfl
    simp only [hgd]
    rw [if_neg (by
      simp only [List.length_cons, List.length_append]
      have : 1 ≤ md.length := List.length_pos.mpr hmidi
      omega)]
    have hdrop7 : (77 :: 73 :: 68 :: 73 :: 1 :: 0 :: (utf8Encode name).length ::
        (utf8Encode name ++ md)).drop 7 = utf8Encode name ++ md := rfl
    have htake : (utf8Encode name ++ md).take (utf8Encode name).length = utf8Encode name :=
      List.take_left _ _
    have hdropall : (77 :: 73 :: 68 :: 73 :: 1 :: 0 :: (utf8Encode name).length ::
        (utf8Encode name ++ md)).drop (7 + (utf8Encode name).length) = md := by
      rw [← List.drop_drop, hdrop7, List.drop_left]
    simp only [hdrop7, htake, hdropall]
    rw [utf8Decode_utf8Encode name hsc]
    simp only [hnul]
    rfl

/-- Round trip for Hello packets: well-formed hostname and device names, a
32-bit id, at most 255 device names, and a consistent name count. -/
theorem hello_roundtrip (p : HelloPacket) (hhost : WfStr p.hostname)
    (hnames : ∀ s ∈ p.device_names, WfStr s) (hid : p.id < 4294967296)
    (hcnt : p.device_names.length ≤ 255)
    (hnum : p.number_of_device_names = p.device_names.length) :
    ∃ bs, HelloPacket.to_bytes p = .ok bs ∧ Packet.from_bytes bs = .ok (.hello p) := by
  obtain ⟨hsc, hlen, hnul⟩ := hhost
  obtain ⟨pid, phost, pnum, pnames⟩ := p
  simp only at hsc hlen hnul hnames hid hcnt hnum
  subst hnum
  refine ⟨77 :: 73 :: 68 :: 73 :: 1 :: 1 :: (idBytes pid ++ (pascalBytes phost ++
      (pnames.length :: (pnames.map pascalBytes).flatten))), ?_, ?_⟩
  · simp only [HelloPacket.to_bytes]
    rw [intToBytes_idBytes pid hid, exceptBind_ok]
    rw [to_pascal_like_byte_string_wf phost hsc hlen, exceptBind_ok]
    rw [intToBytes_one _ (by omega), exceptBind_ok]
    rw [mapM_pascal pnames hnames, exceptBind_ok]
    simp [HELLO_PACKET_HEADER, List.append_assoc]
  · unfold Packet.from_bytes
    rw [if_neg (by simp), if_neg (by simp [midiMark]), if_neg (by simp [VERSION_NUMBER]),
        if_pos (by simp)]
    unfold HelloPacket.from_bytes
    rw [checkHeader_ok 1 (by omega) _, exceptBind_ok]
    dsimp only
    rw [if_neg (by simp)]
    rw [parserReadId_idBytes pid hid _, exceptBind_ok]
    dsimp only
    rw [parserReadString_pascal phost hsc hlen hnul _, exceptBind_ok]
    dsimp only
    unfold parserReadListOfStrings
    have h1 : parserRead 1 (pnames.length :: (pnames.map pascalBytes).flatten) =
        .ok ([pnames.length], (pnames.map pascalBytes).flatten) :=
      parserRead_exact [pnames.length] _
    rw [h1, exceptBind_ok]
    dsimp only
    simp only [intFromBytes_one]
    have h2 : parserReadStringsLoop pnames.length ((pnames.map pascalBytes).flatten) =
        .ok (pnames, []) := by
      have := parserReadStringsLoop_pascal pnames hnames []
      simpa using this
    rw [h2, exceptBind_ok]
    rfl

theorem byteToDecStr_ne_nil (b : Nat) : byteToDecStr b ≠ [] := by
  unfold byteToDecStr
  split_ifs <;> simp

theorem canonicalIpStr_ne_nil (a b c d : Nat) : canonicalIpStr a b c d ≠ [] := by
  rw [canonicalIpStr_eq]
  rcases e : byteToDecStr a with _ | _
  · exact absurd e (byteToDecStr_ne_nil a)
  · simp

/-- Round trip for Hello-Reply packets: in addition to the Hello conditions,
a non-negative 32-bit id and a canonical dotted-quad `remote_ip`. -/
theorem helloReply_roundtrip (p : HelloReplyPacket) (a b c d : Nat)
    (ha : a < 256) (hb : b < 256) (hc : c < 256) (hd : d < 256)
    (hip : p.remote_ip = canonicalIpStr a b c d)
    (hhost : WfStr p.hostname) (hnames : ∀ s ∈ p.device_names, WfStr s)
    (hid0 : 0 ≤ p.id) (hid : p.id < 4294967296)
    (hcnt : p.device_names.length ≤ 255)
    (hnum : p.number_of_device_names = p.device_names.length) :
    ∃ bs, HelloReplyPacket.to_bytes p = .ok bs ∧ Packet.from_bytes bs = .ok (.helloReply p) := by
  obtain ⟨hsc, hlen, hnul⟩ := hhost
  obtain ⟨pid, pip, phost, pnum, pnames⟩ := p
  simp only at hsc hlen hnul hnames hip hid0 hid hcnt hnum
  subst hnum
  subst hip
  have htn : pid.toNat < 4294967296 := by omega
  refine ⟨77 :: 73 :: 68 :: 73 :: 1 :: 2 :: (idBytes pid.toNat ++ ([a, b, c, d] ++
      (pascalBytes phost ++ (pnames.length :: (pnames.map pascalBytes).flatten)))), ?_, ?_⟩
  · simp only [HelloReplyPacket.to_bytes]
    rw [if_neg (by omega), if_neg (by simpa using canonicalIpStr_ne_nil a b c d)]
    rw [intToBytes_idBytes pid.toNat htn, exceptBind_ok]
    rw [ip_address_to_bytes_canonical a b c d ha hb hc hd, exceptBind_ok]
    rw [to_pascal_like_byte_string_wf phost hsc hlen, exceptBind_ok]
    rw [intToBytes_one _ (by omega), exceptBind_ok]
    rw [mapM_pascal pnames hnames, exceptBind_ok]
    simp [HELLO_REPLY_PACKET_HEADER, List.append_assoc]
  · unfold Packet.from_bytes
    rw [if_neg (by simp), if_neg (by simp [midiMark]), if_neg (by simp [VERSION_NUMBER]),
        if_neg (by simp), if_pos (by simp)]
    unfold HelloReplyPacket.from_bytes
    rw [checkHeader_ok 2 (by omega) _, exceptBind_ok]
    dsimp only
    rw [if_neg (by simp)]
    rw [parserReadId_idBytes pid.toNat htn _, exceptBind_ok]
    dsimp only
    rw [parserReadIpAddress_bytes a b c d _, exceptBind_ok]
    dsimp only
    rw [parserReadString_pascal phost hsc hlen hnul _, exceptBind_ok]
    dsimp only
    unfold parserReadListOfStrings
    have h1 : parserRead 1 (pnames.length :: (pnames.map pascalBytes).flatten) =
        .ok ([pnames.length], (pnames.map pascalBytes).flatten) :=
      parserRead_exact [pnames.length] _
    rw [h1, exceptBind_ok]
    dsimp only
    simp only [intFromBytes_one]
    have h2 : parserReadStringsLoop pnames.length ((pnames.map pascalBytes).flatten) =
        .ok (pnames, []) := by
      have := parserReadStringsLoop_pascal pnames hnames []
      simpa using this
    rw [h2, exceptBind_ok]
    dsimp only
    have : Int.ofNat pid.toNat = pid := by simpa using Int.toNat_of_nonneg hid0
    rw [this]
    rfl

/-! ### Error-kind analysis of the decoder -/

theorem exceptBind_err {ε α β : Type} (e : ε) (f : α → Except ε β) :
    (Except.error e >>= f : Except ε β) = Except.error e := rfl

theorem except_bind_err_elim {ε α β : Type} (x : Except ε α) (f : α → Except ε β) (e : ε)
    (h : (x >>= f) = .error e) :
    x = .error e ∨ ∃ v, x = .ok v ∧ f v = .error e := by
  rcases x with e' | v
  · left
    rw [exceptBind_err] at h
    have he : e' = e := by simpa using h
    rw [he]
  · right
    exact ⟨v, rfl, by rwa [exceptBind_ok] at h⟩

theorem parserRead_err (n : Nat) (data : List Nat) (e : PyExc)
    (h : parserRead n data = .error e) : e.isValueError = true := by
  unfold parserRead at h
  by_cases h1 : data.length < n
  · rw [if_pos h1] at h
    cases h
    rfl
  · rw [if_neg h1] at h
    simp at h

theorem parserReadId_err (data : List Nat) (e : PyExc)
    (h : parserReadId data = .error e) : e.isValueError = true := by
  unfold parserReadId at h
  rcases except_bind_err_elim _ _ _ h with he | ⟨v, hv, hf⟩
  · exact parserRead_err _ _ _ he
  · obtain ⟨bs, rest⟩ := v
    simp at hf

theorem parserReadIpAddress_err (data : List Nat) (e : PyExc)
    (h : parserReadIpAddress data = .error e) : e.isValueError = true := by
  unfold parserReadIpAddress at h
  rcases except_bind_err_elim _ _ _ h with he | ⟨v, hv, hf⟩
  · exact parserRead_err _ _ _ he
  · obtain ⟨bs, rest⟩ := v
    simp at hf

theorem parserReadString_err (data : List Nat) (e : PyExc)
    (h : parserReadString data = .error e) : e.isValueError = true := by
  unfold parserReadString at h
  rcases except_bind_err_elim _ _ _ h with he | ⟨v, hv, hf⟩
  · exact parserRead_err _ _ _ he
  · obtain ⟨lb, rest⟩ := v
    dsimp only at hf
    rcases except_bind_err_elim _ _ _ hf with he2 | ⟨v2, hv2, hf2⟩
    · exact parserRead_err _ _ _ he2
    · obtain ⟨sb, rest2⟩ := v2
      dsimp only at hf2
      rcases hdec : utf8Decode sb with _ | cps
      · rw [hdec] at hf2
        cases hf2
        rfl
      · rw [hdec] at hf2
        simp at hf2

theorem parserReadStringsLoop_err (k : Nat) (data : List Nat) (e : PyExc)
    (h : parserReadStringsLoop k data = .error e) : e.isValueError = true := by
  induction k generalizing data with
  | zero => simp [parserReadStringsLoop] at h
  | succ k ih =>
    unfold parserReadStringsLoop at h
    rcases except_bind_err_elim _ _ _ h with he | ⟨v, hv, hf⟩
    · exact parserReadString_err _ _ he
    · obtain ⟨s, rest⟩ := v
      dsimp only at hf
      rcases except_bind_err_elim _ _ _ hf with he2 | ⟨v2, hv2, hf2⟩
      · exact ih _ he2
      · obtain ⟨ss, rest2⟩ := v2
        simp at hf2

theorem parserReadListOfStrings_err (data : List Nat) (e : PyExc)
    (h : parserReadListOfStrings data = .error e) : e.isValueError = true := by
  unfold parserReadListOfStrings at h
  rcases except_bind_err_elim _ _ _ h with he | ⟨v, hv, hf⟩
  · exact parserRead_err _ _ _ he
  · obtain ⟨nb, rest⟩ := v
    exact parserReadStringsLoop_err _ _ _ hf

theorem checkHeader_err (data : List Nat) (e : PyExc)
    (h : checkHeader data = .error e) : e.isValueError = true := by
  unfold checkHeader at h
  split_ifs at h <;> (cases h; rfl)

theorem helloPacket_from_bytes_err (data : List Nat) (e : PyExc)
    (h : HelloPacket.from_bytes data = .error e) : e.isValueError = true := by
  unfold HelloPacket.from_bytes at h
  rcases except_bind_err_elim _ _ _ h with he | ⟨v, hv, hf⟩
  · exact checkHeader_err _ _ he
  · obtain ⟨ptype, rest⟩ := v
    dsimp only at hf
    split_ifs at hf
    · cases hf
      rfl
    · rcases except_bind_err_elim _ _ _ hf with he2 | ⟨v2, hv2, hf2⟩
      · exact parserReadId_err _ _ he2
      · obtain ⟨pid, rest1⟩ := v2
        dsimp only at hf2
        rcases except_bind_err_elim _ _ _ hf2 with he3 | ⟨v3, hv3, hf3⟩
        · exact parserReadString_err _ _ he3
        · obtain ⟨host, rest2⟩ := v3
          dsimp only at hf3
          rcases except_bind_err_elim _ _ _ hf3 with he4 | ⟨v4, hv4, hf4⟩
          · exact parserReadListOfStrings_err _ _ he4
          · obtain ⟨names, rest3⟩ := v4
            simp at hf4

theorem helloReplyPacket_from_bytes_err (data : List Nat) (e : PyExc)
    (h : HelloReplyPacket.from_bytes data = .error e) : e.isValueError = true := by
  unfold HelloReplyPacket.from_bytes at h
  rcases except_bind_err_elim _ _ _ h with he | ⟨v, hv, hf⟩
  · exact checkHeader_err _ _ he
  · obtain ⟨ptype, rest⟩ := v
    dsimp only at hf
    split_ifs at hf
    · cases hf
      rfl
    · rcases except_bind_err_elim _ _ _ hf with he2 | ⟨v2, hv2, hf2⟩
      · exact parserReadId_err _ _ he2
      · obtain ⟨pid, rest1⟩ := v2
        dsimp only at hf2
        rcases except_bind_err_elim _ _ _ hf2 with he3 | ⟨v3, hv3, hf3⟩
        · exact parserReadIpAddress_err _ _ he3
        · obtain ⟨rip, rest2⟩ := v3
          dsimp only at hf3
          rcases except_bind_err_elim _ _ _ hf3 with he4 | ⟨v4, hv4, hf4⟩
          · exact parserReadString_err _ _ he4
          · obtain ⟨host, rest3⟩ := v4
            dsimp only at hf4
            rcases except_bind_err_elim _ _ _ hf4 with he5 | ⟨v5, hv5, hf5⟩
            · exact parserReadListOfStrings_err _ _ he5
            · obtain ⟨names, rest4⟩ := v5
              simp at hf5

theorem midiMessagePacket_from_bytes_err (data : List Nat) (e : PyExc)
    (h : MidiMessagePacket.from_bytes data = .error e) :
    e.isValueError = true ∨ (e = .indexError ∧ data = MIDI_MESSAGE_PACKET_HEADER) := by
  unfold MidiMessagePacket.from_bytes at h
  by_cases h1 : data.take 6 ≠ MIDI_MESSAGE_PACKET_HEADER
  · rw [if_pos h1] at h
    simp at h
  · rw [if_neg h1] at h
    push_neg at h1
    by_cases h2 : data.length ≤ 6
    · rw [if_pos h2] at h
      right
      refine ⟨(Except.error.inj h).symm, ?_⟩
      have ht : data.take 6 = data := List.take_of_length_le h2
      rw [← ht]
      exact h1
    · rw [if_neg h2] at h
      dsimp only at h
      by_cases h3 : data.length < 6 + 1 + data.getD 6 0 + 1
      · rw [if_pos h3] at h
        left
        cases h
        rfl
      · rw [if_neg h3] at h
        rcases hdec : utf8Decode ((data.drop 7).take (data.getD 6 0)) with _ | cps
        · rw [hdec] at h
          left
          cases h
          rfl
        · rw [hdec] at h
          simp at h

/-- Every failure of the top-level decoder on a marked buffer of length at
least 6, other than on the exact 6-byte MIDI-message header, is a
`ValueError`. -/
theorem packet_from_bytes_uniform_error (data : List Nat) (hmark : data.take 4 = midiMark)
    (hlen : 6 ≤ data.length) (hne : data ≠ MIDI_MESSAGE_PACKET_HEADER) :
    (∃ p, Packet.from_bytes data = .ok p) ∨
    (∃ e, Packet.from_bytes data = .error e ∧ e.isValueError = true) := by
  unfold Packet.from_bytes
  rw [if_neg (by omega), if_neg (by simp [hmark])]
  by_cases hv : data.getD 4 0 ≠ VERSION_NUMBER
  · rw [if_pos hv]
    exact Or.inr ⟨_, rfl, rfl⟩
  · rw [if_neg hv]
    by_cases h1 : data.getD 5 0 = 1
    · rw [if_pos h1]
      rcases hh : HelloPacket.from_bytes data with e | p
      · exact Or.inr ⟨e, by simp [hh, Except.map], helloPacket_from_bytes_err _ _ hh⟩
      · exact Or.inl ⟨.hello p, by simp [hh, Except.map]⟩
    · rw [if_neg h1]
      by_cases h2 : data.getD 5 0 = 2
      · rw [if_pos h2]
        rcases hh : HelloReplyPacket.from_bytes data with e | p
        · exact Or.inr ⟨e, by simp [hh, Except.map], helloReplyPacket_from_bytes_err _ _ hh⟩
        · exact Or.inl ⟨.helloReply p, by simp [hh, Except.map]⟩
      · rw [if_neg h2]
        by_cases h0 : data.getD 5 0 = 0
        · rw [if_pos h0]
          rcases hh : MidiMessagePacket.from_bytes data with e | p
          · rcases midiMessagePacket_from_bytes_err _ _ hh with hval | ⟨_, hdata⟩
            · exact Or.inr ⟨e, by simp [hh, Except.map], hval⟩
            · exact absurd hdata hne
          · exact Or.inl ⟨.midi p, by simp [hh, Except.map]⟩
        · rw [if_neg h0]
          exact Or.inr ⟨_, rfl, rfl⟩

/-! ### worker_messages.py -/

/-- The member names that the `Command` enum of `worker_messages.py`
actually defines. -/
def commandEnumMembers : List String :=
  ["RESTART", "PAUSE", "RESUME", "STOP", "SET_MIDI_INPUT_PORTS", "SET_MIDI_OUTPUT_PORTS",
   "SET_NETWORK_INTERFACE", "SET_ENABLE_LOOPBACK_INTERFACE", "SET_IGNORE_MIDI_CLOCK",
   "SET_SAVE_CPU_TIME"]

/-- Python attribute lookup `Command.<name>`: raises `AttributeError` when
the enum does not define the member. -/
def commandAttr (name : String) : Except PyExc String :=
  if name ∈ commandEnumMembers then .ok name else .error (.attributeError name)

/-- The `match item.command` statement of `MidiReceiver.run`, its case
patterns in source order.  A value pattern `Command.X` is an attribute
lookup evaluated when the pattern is tried; the returned string names the
receiver action selected for the command. -/
def receiverDispatchCommand (cmd : String) : Except PyExc String := do
  let p1 ← commandAttr "CLEAR_STORED_REMOTE_MIDI_DEVICES"
  if cmd = p1 then .ok "clear_stored_remote_midi_devices" else
  let p2 ← commandAttr "PAUSE"
  if cmd = p2 then .ok "pause" else
  let p3 ← commandAttr "RESTART"
  if cmd = p3 then .ok "restart" else
  let p4 ← commandAttr "RESUME"
  if cmd = p4 then .ok "resume" else
  let p5 ← commandAttr "STOP"
  if cmd = p5 then .ok "stop" else
  let p6 ← commandAttr "SET_NETWORK_INTERFACE"
  if cmd = p6 then .ok "set_network_interface" else
  let p7 ← commandAttr "SET_SAVE_CPU_TIME"
  if cmd = p7 then .ok "set_save_cpu_time" else
  .ok "unexpected_command_warning"

/-! ### midi_receiver.py

The receiver worker's inner loop becomes a step function on an explicit
state record.  Python dicts become insertion-ordered association lists,
sets become duplicate-free lists, and the deques of buffered packets become
lists consumed from the left.  The commands modelled are the ones the
receiver's own `match` statement handles — including
`CLEAR_STORED_REMOTE_MIDI_DEVICES`, which `worker_messages.Command` fails
to define (see the C2 analysis; `receiverDispatchCommand` above models that
faithfully).  `sock.sendto`/`queue.put` calls become effects carrying the
data passed; `time.perf_counter()` is one rational per iteration, supplied
as input.  The outer restart loop (socket re-creation, output-port
re-opening) preserves every field modelled here except
`midi_output_ports`. -/

/-- The commands the receiver's `match` statement dispatches on.  The final
constructor stands for any other command, which the receiver logs and
skips with `continue`. -/
inductive RCommand where
  | clearStoredRemoteMidiDevices
  | pause
  | restart
  | resume
  | stop
  | setNetworkInterface (data : Option PyStr)
  | setSaveCpuTime (b : Bool)
  | otherCommand
deriving DecidableEq, Repr

/-- The info messages the receiver handles; the final constructor is any
other info tag, logged and skipped with `continue`. -/
inductive RInfoIn where
  | helloPacketInfo (id : Nat) (ts : ℚ)
  | routingInformation (routes : List (PyStr × List PyStr))
  | otherInfo
deriving DecidableEq, Repr

/-- A queue item: a `CommandMessage`, an `InfoMessage`, or anything else
(logged as invalid and skipped with `continue`). -/
inductive ReceiverQueueItem where
  | command (c : RCommand)
  | info (i : RInfoIn)
  | invalidItem
deriving DecidableEq, Repr

/-- A parsed MIDI event (`mido.parse` is an external collaborator; it is
modelled as wrapping the raw payload bytes). -/
structure MidiEvent where
  evBytes : List Nat
deriving DecidableEq, Repr

/-- `mido.parse`. -/
def midoParse (bs : List Nat) : MidiEvent := ⟨bs⟩

/-- Observable actions of one receiver iteration: puts on the sender and UI
queues, and `output_port.send` calls (send failures are caught and logged
in the source, so the effect records the attempt). -/
inductive ReceiverEffect where
  | toSenderQueueReceivedHello (ip : PyStr) (id : Nat) (ts : ℚ)
  | toUiRemoteMidiDevices (reg : List (PyStr × List PyStr))
  | toUiRoundTripTimes (rtt : List (PyStr × List ℚ))
  | midiOut (port : PyStr) (ev : MidiEvent)
deriving DecidableEq, Repr

/-- Python `dict` lookup on an insertion-ordered association list. -/
def dictGet {α β : Type} [DecidableEq α] (k : α) : List (α × β) → Option β
  | [] => none
  | (k', v) :: rest => if k' = k then some v else dictGet k rest

/-- Python `dict` assignment: overwrite in place or append a new key. -/
def dictSet {α β : Type} [DecidableEq α] (k : α) (v : β) : List (α × β) → List (α × β)
  | [] => [(k, v)]
  | (k', v') :: rest => if k' = k then (k, v) :: rest else (k', v') :: dictSet k v rest

/-- `deque(maxlen=cap)` append: drop from the left beyond the cap. -/
def dequeAppend {α : Type} (cap : Nat) (l : List α) (x : α) : List α :=
  (l ++ [x]).drop ((l ++ [x]).length - cap)

/-- The per-iteration state of `MidiReceiver` (the fields of `__init__`
that the inner loop manipulates; the socket and logger are implicit in the
step inputs and effects). -/
structure ReceiverState where
  network_interface : Option PyStr
  restart : Bool
  running : Bool
  paused : Bool
  save_cpu_time : Bool
  midi_output_ports : List PyStr
  received_midi_messages : List (MidiMessagePacket × PyStr)
  received_hello_packets : List (HelloPacket × PyStr)
  received_hello_reply_packets : List (HelloReplyPacket × PyStr)
  sent_hello_packets_timestamps : List (Int × ℚ)
  remote_midi_devices : List (PyStr × List PyStr)
  round_trip_times : List (PyStr × List ℚ)
  routing_connections : List (PyStr × List PyStr)
deriving DecidableEq, Repr

/-- `MidiReceiver.clear_stored_remote_midi_devices`. -/
def clear_stored_remote_midi_devices (s : ReceiverState) :
    ReceiverState × List ReceiverEffect :=
  ({ s with remote_midi_devices := [] }, [.toUiRemoteMidiDevices []])

/-- The interface value `MidiReceiver.set_network_interface` keeps: a string
that (stripped) matches the IPv4 regex, otherwise `None` (bind all). -/
def interfaceFromData (data : Option PyStr) : Option PyStr :=
  match data with
  | none => none
  | some str => if ipv4RegexMatch (pyStripWs str) then some str else none

/-- `MidiReceiver.set_network_interface`: validate (falling back to bind
all) and always request a restart. -/
def set_network_interface (s : ReceiverState) (data : Option PyStr) : ReceiverState :=
  { s with network_interface := interfaceFromData data, running := false, restart := true }

/-- `MidiReceiver.set_save_cpu_time`. -/
def set_save_cpu_time (s : ReceiverState) (b : Bool) : ReceiverState :=
  { s with save_cpu_time := b }

/-- `MidiReceiver.store_internal_hello_packet_info`: ledger insert.  The id
arrives as the sender's packet counter (a natural); ledger keys are `Int`
because lookups compare them with a reply's decoded `id` field. -/
def store_internal_hello_packet_info (s : ReceiverState) (id : Nat) (ts : ℚ) : ReceiverState :=
  { s with sent_hello_packets_timestamps :=
      dictSet (Int.ofNat id) ts s.sent_hello_packets_timestamps }

/-- `MidiReceiver.check_and_store_incoming_packets`: one non-blocking
`recvfrom` (`none` models `BlockingIOError`), decode, classify; only
`ValueError` is caught — any other exception propagates and kills the
worker. -/
def check_and_store_incoming_packets (s : ReceiverState)
    (datagram : Option (List Nat × PyStr)) : Except PyExc ReceiverState :=
  match datagram with
  | none => .ok s
  | some (data, remote_ip) =>
    match Packet.from_bytes data with
    | .error e => if e.isValueError then .ok s else .error e
    | .ok (.midi p) =>
      .ok { s with received_midi_messages := s.received_midi_messages ++ [(p, remote_ip)] }
    | .ok (.hello p) =>
      .ok { s with received_hello_packets := s.received_hello_packets ++ [(p, remote_ip)] }
    | .ok (.helloReply p) =>
      .ok { s with received_hello_reply_packets :=
              s.received_hello_reply_packets ++ [(p, remote_ip)] }

/-- The device-name merge loop shared by the HELLO and HELLO-REPLY handlers:
each name not yet in the host's set is added and the updated registry is
pushed to the UI queue. -/
def registryAddNames (reg : List (PyStr × List PyStr)) (host : PyStr) :
    List PyStr → List (PyStr × List PyStr) × List ReceiverEffect
  | [] => (reg, [])
  | n :: rest =>
    let cur := (dictGet host reg).getD []
    if n ∈ cur then registryAddNames reg host rest
    else
      let reg' := dictSet host (cur ++ [n]) reg
      let res := registryAddNames reg' host rest
      (res.1, .toUiRemoteMidiDevices reg' :: res.2)

/-- The body of the HELLO loop for one buffered packet. -/
def processOneHello (s : ReceiverState) (pk : HelloPacket) (remote_ip : PyStr) (now : ℚ) :
    ReceiverState × List ReceiverEffect :=
  let hostname := if pk.hostname = unknownStr then remote_ip else pk.hostname
  let eff0 := ReceiverEffect.toSenderQueueReceivedHello remote_ip pk.id now
  if pk.device_names = [] then (s, [eff0])
  else
    let reg0 := if (dictGet hostname s.remote_midi_devices).isSome then s.remote_midi_devices
                else dictSet hostname [] s.remote_midi_devices
    let res := registryAddNames reg0 hostname pk.device_names
    ({ s with remote_midi_devices := res.1 }, eff0 :: res.2)

/-- The `while self.received_hello_packets:` loop. -/
def processHelloList (now : ℚ) :
    ReceiverState → List (HelloPacket × PyStr) → ReceiverState × List ReceiverEffect
  | s, [] => (s, [])
  | s, (pk, ip) :: rest =>
    let r1 := processOneHello s pk ip now
    let r2 := processHelloList now r1.1 rest
    (r2.1, r1.2 ++ r2.2)

/-- `MidiReceiver.process_hello_packets`: drain the deque, then evict
ledger entries older than 300 s. -/
def process_hello_packets (s : ReceiverState) (now : ℚ) :
    ReceiverState × List ReceiverEffect :=
  let r := processHelloList now { s with received_hello_packets := [] }
      s.received_hello_packets
  ({ r.1 with sent_hello_packets_timestamps :=
      r.1.sent_hello_packets_timestamps.filter (fun kv => decide (now - kv.2 < 300)) }, r.2)

/-- The body of the HELLO-REPLY loop for one buffered packet: drop unless
the embedded `remote_ip` equals the bound interface, drop without a ledger
entry, otherwise record the round-trip time, publish the RTT registry, and
merge advertised device names. -/
def processOneHelloReply (s : ReceiverState) (pk : HelloReplyPacket) (remote_ip : PyStr)
    (now : ℚ) : ReceiverState × List ReceiverEffect :=
  let origin_ip := pk.remote_ip
  if s.network_interface ≠ some origin_ip then (s, [])
  else
    let hostname := if pk.hostname = unknownStr then remote_ip else pk.hostname
    match dictGet pk.id s.sent_hello_packets_timestamps with
    | none => (s, [])
    | some ts0 =>
      let rtt := now - ts0
      let ring := (dictGet remote_ip s.round_trip_times).getD []
      let rtts := dictSet remote_ip (dequeAppend 100 ring rtt) s.round_trip_times
      let s1 := { s with round_trip_times := rtts }
      let eff1 := ReceiverEffect.toUiRoundTripTimes rtts
      if pk.device_names = [] then (s1, [eff1])
      else
        let reg0 := if (dictGet hostname s1.remote_midi_devices).isSome
                    then s1.remote_midi_devices
                    else dictSet hostname [] s1.remote_midi_devices
        let res := registryAddNames reg0 hostname pk.device_names
        ({ s1 with remote_midi_devices := res.1 }, eff1 :: res.2)

/-- The `while self.received_hello_reply_packets:` loop. -/
def processHelloReplyList (now : ℚ) :
    ReceiverState → List (HelloReplyPacket × PyStr) → ReceiverState × List ReceiverEffect
  | s, [] => (s, [])
  | s, (pk, ip) :: rest =>
    let r1 := processOneHelloReply s pk ip now
    let r2 := processHelloReplyList now r1.1 rest
    (r2.1, r1.2 ++ r2.2)

/-- `MidiReceiver.process_hello_reply_packets`. -/
def process_hello_reply_packets (s : ReceiverState) (now : ℚ) :
    ReceiverState × List ReceiverEffect :=
  processHelloReplyList now { s with received_hello_reply_packets := [] }
    s.received_hello_reply_packets

/-- Dispatch of one buffered MIDI-message packet: the walrus guard makes a
missing routing entry and an empty routed set equally inert, and only
opened output ports receive the event. -/
def processOneMidi (s : ReceiverState) (pk : MidiMessagePacket) : List ReceiverEffect :=
  let ev := midoParse pk.midi_data
  match dictGet pk.device_name s.routing_connections with
  | none => []
  | some names =>
    if names = [] then []
    else names.filterMap fun n =>
      if n ∈ s.midi_output_ports then some (ReceiverEffect.midiOut n ev) else none

/-- The `while self.received_midi_messages:` loop. -/
def processMidiList (s : ReceiverState) : List (MidiMessagePacket × PyStr) → List ReceiverEffect
  | [] => []
  | (pk, _) :: rest => processOneMidi s pk ++ processMidiList s rest

/-- `MidiReceiver.process_other_packets`. -/
def process_other_packets (s : ReceiverState) : ReceiverState × List ReceiverEffect :=
  ({ s with received_midi_messages := [] }, processMidiList s s.received_midi_messages)

/-- The command/info phase of one loop iteration.  The returned Boolean is
true when the iteration stops here: `break` for RESTART, `continue` for an
unexpected command, an unexpected info tag, or an invalid item. -/
def processQueueItem (s : ReceiverState) :
    ReceiverQueueItem → ReceiverState × List ReceiverEffect × Bool
  | .command c =>
    match c with
    | .clearStoredRemoteMidiDevices =>
      let r := clear_stored_remote_midi_devices s
      (r.1, r.2, false)
    | .pause => ({ s with paused := true }, [], false)
    | .restart => ({ s with running := false, restart := true }, [], true)
    | .resume => ({ s with paused := false }, [], false)
    | .stop => ({ s with running := false }, [], false)
    | .setNetworkInterface d => (set_network_interface s d, [], false)
    | .setSaveCpuTime b => (set_save_cpu_time s b, [], false)
    | .otherCommand => (s, [], true)
  | .info i =>
    match i with
    | .helloPacketInfo id ts => (store_internal_hello_packet_info s id ts, [], false)
    | .routingInformation routes => ({ s with routing_connections := routes }, [], false)
    | .otherInfo => (s, [], true)
  | .invalidItem => (s, [], true)

/-- The environment of one loop iteration: at most one queue item
(`none` is `queue.Empty`), at most one datagram (`none` is
`BlockingIOError`), and the iteration's `perf_counter` reading. -/
structure ReceiverInput where
  queue_item : Option ReceiverQueueItem
  datagram : Option (List Nat × PyStr)
  now : ℚ
deriving DecidableEq, Repr

/-- One iteration of the receiver's inner `while self.running:` loop.
`none` as the resulting state models an uncaught exception killing the
worker; the effects emitted before the exception are kept. -/
def receiverStep (s : ReceiverState) (inp : ReceiverInput) :
    List ReceiverEffect × Option ReceiverState :=
  let cq := match inp.queue_item with
    | none => (s, ([] : List ReceiverEffect), false)
    | some item => processQueueItem s item
  match cq with
  | (s1, effs1, skipRest) =>
    if skipRest then (effs1, some s1)
    else
      match check_and_store_incoming_packets s1 inp.datagram with
      | .error _ => (effs1, none)
      | .ok s2 =>
        let r3 := process_hello_packets s2 inp.now
        let r4 := process_hello_reply_packets r3.1 inp.now
        let r5 := process_other_packets r4.1
        (effs1 ++ r3.2 ++ r4.2 ++ r5.2, some r5.1)

/-- The state entering the inner loop after `__init__`, with the output
ports that `get_midi_output_ports` managed to open. -/
def receiverInitState (outputs : List PyStr) : ReceiverState :=
  { network_interface := none, restart := false, running := true, paused := false,
    save_cpu_time := true, midi_output_ports := outputs,
    received_midi_messages := [], received_hello_packets := [],
    received_hello_reply_packets := [], sent_hello_packets_timestamps := [],
    remote_midi_devices := [], round_trip_times := [], routing_connections := [] }

/-- Run the receiver loop over a list of iteration inputs, accumulating
effects; a crashed worker stops consuming inputs. -/
def receiverRun (s : ReceiverState) :
    List ReceiverInput → List ReceiverEffect × Option ReceiverState
  | [] => ([], some s)
  | inp :: rest =>
    match receiverStep s inp with
    | (effs, none) => (effs, none)
    | (effs, some s1) =>
      let r := receiverRun s1 rest
      (effs ++ r.1, r.2)

/-! ### midi_sender.py

The sender worker's inner loop, modelled like the receiver's.  Open input
ports are pairs of a network name and the list of pending events that
`iter_pending()` would drain; events that arrive between iterations are
supplied as step inputs and appended at the start of the iteration.
`sock.sendto(packet.to_bytes(), group)` calls become effects tagged by the
call site and carrying the packet, with the byte-level layout given by the
protocol section's `to_bytes` functions. -/

/-- A MIDI event as a `mido` input port yields it: its type string (for
clock filtering) and its raw bytes. -/
structure MidoMessage where
  mtype : String
  mbytes : List Nat
deriving DecidableEq, Repr

/-- Commands the sender's `match` statement handles (all of these exist in
the `Command` enum).  `setMidiInputPorts` carries the network names whose
ports opened successfully; a freshly opened port has nothing pending. -/
inductive SCommand where
  | restart
  | pause
  | resume
  | stop
  | setMidiInputPorts (networkNames : List PyStr)
  | setNetworkInterface (data : Option PyStr)
  | setEnableLoopbackInterface (b : Bool)
  | setIgnoreMidiClock (b : Bool)
  | setSaveCpuTime (b : Bool)
deriving DecidableEq, Repr

/-- A sender queue item: a command, the RECEIVED_HELLO_PACKET info message,
or anything else (logged and skipped with `continue`). -/
inductive SenderQueueItem where
  | command (c : SCommand)
  | infoReceivedHelloPacket (remote_ip : PyStr) (hello_id : Nat) (ts : ℚ)
  | invalidItem
deriving DecidableEq, Repr

/-- Observable actions of one sender iteration. -/
inductive SenderEffect where
  | sentMidiPacket (p : MidiMessagePacket)
  | sentHelloPacket (p : HelloPacket)
  | sentHelloReplyPacket (p : HelloReplyPacket)
  | helloInfoToReceiver (id : Nat) (ts : ℚ)
deriving DecidableEq, Repr

/-- The per-iteration state of `MidiSender`.  `helloCounter` is the
process-global `HelloPacket._counter`; `hostname` the cached
`socket.gethostname()`. -/
structure SenderState where
  network_interface : PyStr
  enable_multicast_loop : Bool
  restart : Bool
  running : Bool
  paused : Bool
  ignore_midi_clock : Bool
  save_cpu_time : Bool
  opened_input_ports : List (PyStr × List MidoMessage)
  timestamp_of_last_hello : Option ℚ
  helloCounter : Nat
  hostname : PyStr
deriving DecidableEq, Repr

/-- `MidiSender.resume_sending_midi_messages`: clear the paused flag and
drain (discard) everything pending on the open input ports. -/
def resume_sending_midi_messages (s : SenderState) : SenderState :=
  { s with paused := false,
           opened_input_ports := s.opened_input_ports.map fun p => (p.1, []) }

/-- `MidiSender.send_hello_packet`: every 10 s (wall-clock), construct a
Hello packet carrying the open ports' network names — the dataclass
constructor draws `id` from the global counter and leaves
`number_of_device_names` at its default 0 — hand `(id, perf_counter)` to
the receiver, then multicast the packet. -/
def send_hello_packet (s : SenderState) (now_time now_perf : ℚ) :
    SenderState × List SenderEffect :=
  let due := match s.timestamp_of_last_hello with
    | none => true
    | some t => decide (now_time - t ≥ 10)
  if due then
    let pk : HelloPacket :=
      { id := s.helloCounter, hostname := s.hostname,
        number_of_device_names := 0, device_names := s.opened_input_ports.map (·.1) }
    ({ s with timestamp_of_last_hello := some now_time, helloCounter := s.helloCounter + 1 },
     [.helloInfoToReceiver s.helloCounter now_perf, .sentHelloPacket pk])
  else (s, [])

/-- `MidiSender.send_hello_reply_packet`. -/
def send_hello_reply_packet (s : SenderState) (remote_ip : PyStr) (hello_id : Nat) :
    List SenderEffect :=
  [.sentHelloReplyPacket
    { id := Int.ofNat hello_id, remote_ip := remote_ip, hostname := s.hostname,
      number_of_device_names := 0, device_names := [] }]

/-- The inner loop of `send_midi_messages` for one port: wrap each pending
event, skipping clock events when `ignore_midi_clock` is set. -/
def portEvents (ignoreClock : Bool) (networkName : PyStr) :
    List MidoMessage → List SenderEffect
  | [] => []
  | m :: rest =>
    if ignoreClock ∧ m.mtype = "clock" then portEvents ignoreClock networkName rest
    else .sentMidiPacket ⟨networkName, m.mbytes⟩ :: portEvents ignoreClock networkName rest

/-- `MidiSender.send_midi_messages`: drain every open port and multicast
each (non-filtered) event as a MIDI-message packet. -/
def send_midi_messages (s : SenderState) : SenderState × List SenderEffect :=
  ({ s with opened_input_ports := s.opened_input_ports.map fun p => (p.1, []) },
   (s.opened_input_ports.map fun p => portEvents s.ignore_midi_clock p.1 p.2).flatten)

/-- `MidiSender.set_midi_input_ports`: replace the open set (ports that
fail to open are logged and excluded — the command data here carries the
names that opened). -/
def set_midi_input_ports (s : SenderState) (networkNames : List PyStr) : SenderState :=
  { s with opened_input_ports := networkNames.map fun n => (n, []) }

/-- The string `'127.0.0.0'`, the sender's fallback interface. -/
def fallbackInterfaceStr : PyStr := [49, 50, 55, 46, 48, 46, 48, 46, 48]

/-- `MidiSender.set_network_interface`: an invalid value falls back to
`'127.0.0.0'`; always restart. -/
def sender_set_network_interface (s : SenderState) (data : Option PyStr) : SenderState :=
  let ni := match data with
    | some str => if ipv4RegexMatch (pyStripWs str) then str else fallbackInterfaceStr
    | none => fallbackInterfaceStr
  { s with network_interface := ni, running := false, restart := true }

/-- `MidiSender.set_enable_loopback_interface` (restarts the loop). -/
def set_enable_loopback_interface (s : SenderState) (b : Bool) : SenderState :=
  { s with enable_multicast_loop := b, running := false, restart := true }

/-- `MidiSender.set_ignore_midi_clock` (restarts the loop). -/
def set_ignore_midi_clock (s : SenderState) (b : Bool) : SenderState :=
  { s with ignore_midi_clock := b, running := false, restart := true }

/-- `MidiSender.set_save_cpu_time`. -/
def sender_set_save_cpu_time (s : SenderState) (b : Bool) : SenderState :=
  { s with save_cpu_time := b }

/-- The command/info phase of one sender iteration; the Boolean is true
when the iteration stops here (`break` on RESTART, `continue` on an
invalid item — the sender's matches have no wildcard arms, so unmatched
tags simply fall through). -/
def processSenderQueueItem (s : SenderState) :
    SenderQueueItem → SenderState × List SenderEffect × Bool
  | .command c =>
    match c with
    | .restart => ({ s with running := false, restart := true }, [], true)
    | .pause => ({ s with paused := true }, [], false)
    | .resume => (resume_sending_midi_messages s, [], false)
    | .stop => ({ s with running := false }, [], false)
    | .setMidiInputPorts names => (set_midi_input_ports s names, [], false)
    | .setNetworkInterface d => (sender_set_network_interface s d, [], false)
    | .setEnableLoopbackInterface b => (set_enable_loopback_interface s b, [], false)
    | .setIgnoreMidiClock b => (set_ignore_midi_clock s b, [], false)
    | .setSaveCpuTime b => (sender_set_save_cpu_time s b, [], false)
  | .infoReceivedHelloPacket ip id _ => (s, send_hello_reply_packet s ip id, false)
  | .invalidItem => (s, [], true)

/-- The environment of one sender iteration: events newly arrived on the
open ports, at most one queue item, and the iteration's `time.time()` and
`time.perf_counter()` readings. -/
structure SenderInput where
  arrivals : List (PyStr × MidoMessage)
  queue_item : Option SenderQueueItem
  now_time : ℚ
  now_perf : ℚ
deriving DecidableEq, Repr

/-- Append the newly arrived events to their ports' pending lists. -/
def applyArrivals (ports : List (PyStr × List MidoMessage))
    (arrivals : List (PyStr × MidoMessage)) : List (PyStr × List MidoMessage) :=
  ports.map fun p =>
    (p.1, p.2 ++ arrivals.filterMap fun a => if a.1 = p.1 then some a.2 else none)

/-- One iteration of the sender's inner `while self.running:` loop: queue
phase, Hello beacon, then — only when not paused — the MIDI drain. -/
def senderStep (s : SenderState) (inp : SenderInput) : List SenderEffect × SenderState :=
  let s0 := { s with opened_input_ports := applyArrivals s.opened_input_ports inp.arrivals }
  let cq := match inp.queue_item with
    | none => (s0, ([] : List SenderEffect), false)
    | some item => processSenderQueueItem s0 item
  match cq with
  | (s1, effs1, skipRest) =>
    if skipRest then (effs1, s1)
    else
      let rh := send_hello_packet s1 inp.now_time inp.now_perf
      if rh.1.paused then (effs1 ++ rh.2, rh.1)
      else
        let rm := send_midi_messages rh.1
        (effs1 ++ rh.2 ++ rm.2, rm.1)

/-! ### The claims -/

/-- C1, counterexample: a Hello packet whose hostname is the one-character
string `'\x00'` — a valid UTF-8 string of one octet — encodes fine, but
decoding strips the NULs and yields a different packet. -/
theorem C1_roundtrip_counterexample :
    HelloPacket.to_bytes ⟨0, [0], 0, []⟩ = .ok [77, 73, 68, 73, 1, 1, 0, 0, 0, 0, 1, 0, 0] ∧
    Packet.from_bytes [77, 73, 68, 73, 1, 1, 0, 0, 0, 0, 1, 0, 0] =
      .ok (.hello ⟨0, [], 0, []⟩) ∧
    (HelloPacket.mk 0 [] 0 [] ≠ HelloPacket.mk 0 [0] 0 []) ∧
    (∀ c ∈ ([0] : PyStr), ScalarValue c) ∧ (utf8Encode [0]).length ≤ 64 := by
  refine ⟨by decide, by decide, by decide, by decide, by decide⟩

/-- C1, amended: decoding inverts encoding for all three packet variants
provided every string field is scalar UTF-8 of at most 64 octets *and has
no leading or trailing NUL*, ids fit in 32 bits (non-negative for a
Hello-Reply), at most 255 device names are carried with a consistent
count, and `remote_ip` is a canonical dotted quad. -/
theorem C1_roundtrip :
    (∀ p : MidiMessagePacket, WfStr p.device_name → p.midi_data ≠ [] →
      ∃ bs, MidiMessagePacket.to_bytes p = .ok bs ∧ Packet.from_bytes bs = .ok (.midi p)) ∧
    (∀ p : HelloPacket, WfStr p.hostname → (∀ s ∈ p.device_names, WfStr s) →
      p.id < 4294967296 → p.device_names.length ≤ 255 →
      p.number_of_device_names = p.device_names.length →
      ∃ bs, HelloPacket.to_bytes p = .ok bs ∧ Packet.from_bytes bs = .ok (.hello p)) ∧
    (∀ (p : HelloReplyPacket) (a b c d : Nat), a < 256 → b < 256 → c < 256 → d < 256 →
      p.remote_ip = canonicalIpStr a b c d →
      WfStr p.hostname → (∀ s ∈ p.device_names, WfStr s) →
      0 ≤ p.id → p.id < 4294967296 → p.device_names.length ≤ 255 →
      p.number_of_device_names = p.device_names.length →
      ∃ bs, HelloReplyPacket.to_bytes p = .ok bs ∧
        Packet.from_bytes bs = .ok (.helloReply p)) :=
  ⟨midiMessage_roundtrip, hello_roundtrip, helloReply_roundtrip⟩

/-- C1, witness: one concrete instance per packet variant. -/
theorem C1_roundtrip_witness :
    (∃ bs, MidiMessagePacket.to_bytes ⟨[107, 98, 100], [144, 60, 64]⟩ = .ok bs ∧
      Packet.from_bytes bs = .ok (.midi ⟨[107, 98, 100], [144, 60, 64]⟩)) ∧
    (∃ bs, HelloPacket.to_bytes ⟨7, [97], 1, [[98]]⟩ = .ok bs ∧
      Packet.from_bytes bs = .ok (.hello ⟨7, [97], 1, [[98]]⟩)) ∧
    (∃ bs, HelloReplyPacket.to_bytes ⟨7, canonicalIpStr 10 0 0 2, [97], 0, []⟩ = .ok bs ∧
      Packet.from_bytes bs = .ok (.helloReply ⟨7, canonicalIpStr 10 0 0 2, [97], 0, []⟩)) :=
  ⟨C1_roundtrip.1 ⟨[107, 98, 100], [144, 60, 64]⟩ (by decide) (by decide),
   C1_roundtrip.2.1 ⟨7, [97], 1, [[98]]⟩ (by decide) (by decide) (by decide) (by decide)
     (by decide),
   C1_roundtrip.2.2 ⟨7, canonicalIpStr 10 0 0 2, [97], 0, []⟩ 10 0 0 2 (by decide) (by decide)
     (by decide) (by decide) rfl (by decide) (by decide) (by decide) (by decide) (by decide)
     (by decide)⟩

/-- C2: the `Command` enum of `worker_messages.py` defines no member
`CLEAR_STORED_REMOTE_MIDI_DEVICES`, so the first case pattern of the
receiver's `match item.command` raises `AttributeError` for *every*
command message — the registry is never cleared and the exception
propagates out of the worker loop. -/
theorem C2_clear_command_attribute_error :
    commandEnumMembers.contains "CLEAR_STORED_REMOTE_MIDI_DEVICES" = false ∧
    ∀ cmd : String, receiverDispatchCommand cmd =
      .error (.attributeError "CLEAR_STORED_REMOTE_MIDI_DEVICES") := by
  refine ⟨by decide, fun cmd => ?_⟩
  unfold receiverDispatchCommand
  rw [show commandAttr "CLEAR_STORED_REMOTE_MIDI_DEVICES" =
      .error (.attributeError "CLEAR_STORED_REMOTE_MIDI_DEVICES") from by decide]
  rfl

/-- C3, counterexample: the exact 6-byte buffer `b'MIDI\x01\x00'` starts
with `"MIDI"` and has length 6, yet decoding raises `IndexError` — not the
`InvalidPacket`/`ValueError` kind; and a device-name field holding the
ill-formed byte `0xFF` makes the decode fail (strict UTF-8, no lossy
replacement). -/
theorem C3_counterexample :
    Packet.from_bytes [77, 73, 68, 73, 1, 0] = .error .indexError ∧
    PyExc.indexError.isValueError = false ∧
    Packet.from_bytes [77, 73, 68, 73, 1, 0, 1, 255, 144] = .error .unicodeDecodeError := by
  refine ⟨by decide, rfl, by decide⟩

/-- C3, amended: on every buffer that starts with `"MIDI"` and has at
least 6 bytes — except the exact 6-byte `b'MIDI\x01\x00'`, which raises
`IndexError` — the decoder returns a packet or fails with a `ValueError`
(the single `InvalidPacket` kind); an ill-formed UTF-8 string field makes
the decode fail, but with `UnicodeDecodeError`, which is itself a
`ValueError`. -/
theorem C3_uniform_error :
    (∀ data : List Nat, data.take 4 = midiMark → 6 ≤ data.length →
      data ≠ MIDI_MESSAGE_PACKET_HEADER →
      (∃ p, Packet.from_bytes data = .ok p) ∨
      (∃ e, Packet.from_bytes data = .error e ∧ e.isValueError = true)) ∧
    Packet.from_bytes [77, 73, 68, 73, 1, 0, 1, 255, 144] = .error .unicodeDecodeError ∧
    PyExc.unicodeDecodeError.isValueError = true :=
  ⟨packet_from_bytes_uniform_error, by decide, rfl⟩

/-- C3, witness: a valid Hello buffer and a truncated Hello buffer, both
covered by the amended statement. -/
theorem C3_uniform_error_witness :
    ((∃ p, Packet.from_bytes [77, 73, 68, 73, 1, 1, 0, 0, 0, 7, 1, 97, 0] = .ok p) ∨
      (∃ e, Packet.from_bytes [77, 73, 68, 73, 1, 1, 0, 0, 0, 7, 1, 97, 0] = .error e ∧
        e.isValueError = true)) ∧
    ((∃ p, Packet.from_bytes [77, 73, 68, 73, 1, 1, 0, 0] = .ok p) ∨
      (∃ e, Packet.from_bytes [77, 73, 68, 73, 1, 1, 0, 0] = .error e ∧
        e.isValueError = true)) :=
  ⟨C3_uniform_error.1 _ (by decide) (by decide) (by decide),
   C3_uniform_error.1 _ (by decide) (by decide) (by decide)⟩

theorem oneReply_rtt (u : ReceiverState) (pk : HelloReplyPacket) (sender_ip : PyStr)
    (ts0 ts1 : ℚ) (hif : u.network_interface = some pk.remote_ip)
    (h : dictGet pk.id u.sent_hello_packets_timestamps = some ts0) :
    (processOneHelloReply u pk sender_ip ts1).1.round_trip_times =
      dictSet sender_ip
        (dequeAppend 100 ((dictGet sender_ip u.round_trip_times).getD []) (ts1 - ts0))
        u.round_trip_times := by
  unfold processOneHelloReply
  rw [if_neg (by simp [hif]), h]
  dsimp only
  by_cases hd : pk.device_names = []
  · rw [if_pos hd]
  · rw [if_neg hd]

theorem oneReply_rtt_absent (u : ReceiverState) (pk : HelloReplyPacket) (sender_ip : PyStr)
    (ts1 : ℚ) (hif : u.network_interface = some pk.remote_ip)
    (h : dictGet pk.id u.sent_hello_packets_timestamps = none) :
    processOneHelloReply u pk sender_ip ts1 = (u, []) := by
  unfold processOneHelloReply
  rw [if_neg (by simp [hif]), h]

theorem oneReply_filtered (u : ReceiverState) (pk : HelloReplyPacket) (sender_ip : PyStr)
    (ts1 : ℚ) (hif : u.network_interface ≠ some pk.remote_ip) :
    processOneHelloReply u pk sender_ip ts1 = (u, []) := by
  unfold processOneHelloReply
  rw [if_pos hif]

/-- C5: with the reply's embedded `remote_ip` matching the bound interface,
a HELLO-REPLY whose id has a ledger entry `(id, ts0)`, processed at time
`ts1`, appends exactly `ts1 − ts0` to the RTT ring of the reply's sender
IP (capped at 100, all other rings untouched); one whose id is absent from
the ledger appends nothing to any ring. -/
theorem C5_rtt_matching (s : ReceiverState) (pk : HelloReplyPacket) (sender_ip : PyStr)
    (ts0 ts1 : ℚ) (hq : s.received_hello_reply_packets = [(pk, sender_ip)])
    (hif : s.network_interface = some pk.remote_ip) :
    (dictGet pk.id s.sent_hello_packets_timestamps = some ts0 →
      (process_hello_reply_packets s ts1).1.round_trip_times =
        dictSet sender_ip
          (dequeAppend 100 ((dictGet sender_ip s.round_trip_times).getD []) (ts1 - ts0))
          s.round_trip_times) ∧
    (dictGet pk.id s.sent_hello_packets_timestamps = none →
      (process_hello_reply_packets s ts1).1.round_trip_times = s.round_trip_times) := by
  constructor
  · intro h
    unfold process_hello_reply_packets
    rw [hq]
    simp only [processHelloReplyList]
    have h1 := oneReply_rtt { s with received_hello_reply_packets := [] } pk sender_ip ts0 ts1
      (by simpa using hif) (by simpa using h)
    simpa using h1
  · intro h
    unfold process_hello_reply_packets
    rw [hq]
    simp only [processHelloReplyList]
    rw [oneReply_rtt_absent { s with received_hello_reply_packets := [] } pk sender_ip ts1
      (by simpa using hif) (by simpa using h)]

/-- C5, witness: ledger entry `(7, 1)` and a matching reply processed at
time 5 put the single sample `4` into the sender's ring. -/
theorem C5_rtt_matching_witness :
    (process_hello_reply_packets
      { receiverInitState [] with
          network_interface := some [49, 46, 50, 46, 51, 46, 52],
          sent_hello_packets_timestamps := [((7 : Int), (1 : ℚ))],
          received_hello_reply_packets :=
            [(⟨7, [49, 46, 50, 46, 51, 46, 52], [104], 0, []⟩, [53, 46, 54, 46, 55, 46, 56])] }
      5).1.round_trip_times =
      dictSet [53, 46, 54, 46, 55, 46, 56]
        (dequeAppend 100
          ((dictGet [53, 46, 54, 46, 55, 46, 56]
            ({ receiverInitState [] with
                network_interface := some [49, 46, 50, 46, 51, 46, 52],
                sent_hello_packets_timestamps := [((7 : Int), (1 : ℚ))],
                received_hello_reply_packets :=
                  [(⟨7, [49, 46, 50, 46, 51, 46, 52], [104], 0, []⟩,
                    [53, 46, 54, 46, 55, 46, 56])] } : ReceiverState).round_trip_times).getD [])
          (5 - 1))
        ({ receiverInitState [] with
            network_interface := some [49, 46, 50, 46, 51, 46, 52],
            sent_hello_packets_timestamps := [((7 : Int), (1 : ℚ))],
            received_hello_reply_packets :=
              [(⟨7, [49, 46, 50, 46, 51, 46, 52], [104], 0, []⟩,
                [53, 46, 54, 46, 55, 46, 56])] } : ReceiverState).round_trip_times :=
  (C5_rtt_matching _ ⟨7, [49, 46, 50, 46, 51, 46, 52], [104], 0, []⟩
    [53, 46, 54, 46, 55, 46, 56] 1 5 rfl rfl).1 rfl

/-- C6: a HELLO-REPLY whose embedded `remote_ip` differs from the bound
interface is dropped whole: the packet leaves the buffer, and the step
changes nothing else and emits nothing — in particular the RTT registry,
the pending-hello ledger and the remote-device registry are untouched. -/
theorem C6_reply_filtering (s : ReceiverState) (pk : HelloReplyPacket) (sender_ip : PyStr)
    (ts1 : ℚ) (hq : s.received_hello_reply_packets = [(pk, sender_ip)])
    (hif : s.network_interface ≠ some pk.remote_ip) :
    process_hello_reply_packets s ts1 = ({ s with received_hello_reply_packets := [] }, []) := by
  unfold process_hello_reply_packets
  rw [hq]
  simp only [processHelloReplyList]
  rw [oneReply_filtered { s with received_hello_reply_packets := [] } pk sender_ip ts1
    (by simpa using hif)]
  simp

/-- C6, witness: a reply for `9.9.9.9` arriving at a receiver bound to
`1.2.3.4` leaves the state unchanged apart from the emptied buffer. -/
theorem C6_reply_filtering_witness :
    process_hello_reply_packets
      { receiverInitState [] with
          network_interface := some [49, 46, 50, 46, 51, 46, 52],
          sent_hello_packets_timestamps := [((7 : Int), (1 : ℚ))],
          received_hello_reply_packets :=
            [(⟨7, [57, 46, 57, 46, 57, 46, 57], [104], 0, []⟩, [53, 46, 54, 46, 55, 46, 56])] }
      5 =
      ({ { receiverInitState [] with
            network_interface := some [49, 46, 50, 46, 51, 46, 52],
            sent_hello_packets_timestamps := [((7 : Int), (1 : ℚ))],
            received_hello_reply_packets :=
              [(⟨7, [57, 46, 57, 46, 57, 46, 57], [104], 0, []⟩,
                [53, 46, 54, 46, 55, 46, 56])] } with
          received_hello_reply_packets := [] }, []) :=
  C6_reply_filtering _ ⟨7, [57, 46, 57, 46, 57, 46, 57], [104], 0, []⟩
    [53, 46, 54, 46, 55, 46, 56] 5 rfl (by decide)

/-- C9: a buffered MIDI-message packet whose device name routes to the set
containing exactly O1 and O2, both opened, is sent to exactly O1 and O2 —
no other port; a packet with no routing entry is sent nowhere. -/
theorem C9_routing_dispatch (s : ReceiverState) (pk : MidiMessagePacket) (src : PyStr)
    (o1 o2 : PyStr) (hq : s.received_midi_messages = [(pk, src)]) :
    (dictGet pk.device_name s.routing_connections = some [o1, o2] →
      o1 ∈ s.midi_output_ports → o2 ∈ s.midi_output_ports →
      process_other_packets s = ({ s with received_midi_messages := [] },
        [.midiOut o1 (midoParse pk.midi_data), .midiOut o2 (midoParse pk.midi_data)])) ∧
    (dictGet pk.device_name s.routing_connections = none →
      process_other_packets s = ({ s with received_midi_messages := [] }, [])) := by
  constructor
  · intro hr h1 h2
    unfold process_other_packets
    rw [hq]
    simp only [processMidiList]
    unfold processOneMidi
    rw [hr]
    simp [h1, h2]
  · intro hr
    unfold process_other_packets
    rw [hq]
    simp only [processMidiList]
    unfold processOneMidi
    rw [hr]
    simp

/-- C9, witness: device `kbd` routed to `out-1` and `out-2`, both open. -/
theorem C9_routing_dispatch_witness :
    process_other_packets
      { receiverInitState [[111, 117, 116, 45, 49], [111, 117, 116, 45, 50]] with
          routing_connections :=
            [([107, 98, 100], [[111, 117, 116, 45, 49], [111, 117, 116, 45, 50]])],
          received_midi_messages :=
            [(⟨[107, 98, 100], [144, 60, 64]⟩, [49, 48, 46, 48, 46, 48, 46, 50])] } =
      ({ { receiverInitState [[111, 117, 116, 45, 49], [111, 117, 116, 45, 50]] with
            routing_connections :=
              [([107, 98, 100], [[111, 117, 116, 45, 49], [111, 117, 116, 45, 50]])],
            received_midi_messages :=
              [(⟨[107, 98, 100], [144, 60, 64]⟩, [49, 48, 46, 48, 46, 48, 46, 50])] } with
          received_midi_messages := [] },
       [.midiOut [111, 117, 116, 45, 49] (midoParse [144, 60, 64]),
        .midiOut [111, 117, 116, 45, 50] (midoParse [144, 60, 64])]) :=
  (C9_routing_dispatch _ ⟨[107, 98, 100], [144, 60, 64]⟩ [49, 48, 46, 48, 46, 48, 46, 50]
    [111, 117, 116, 45, 49] [111, 117, 116, 45, 50] rfl).1 rfl (by decide) (by decide)

/-- Recognise a `sock.sendto` of a MIDI-message packet. -/
def isMidiSend : SenderEffect → Bool
  | .sentMidiPacket _ => true
  | _ => false

theorem send_hello_packet_no_midi (s : SenderState) (t p : ℚ) :
    (send_hello_packet s t p).2.filter isMidiSend = [] := by
  unfold send_hello_packet
  dsimp only
  split <;> rfl

theorem send_hello_packet_preserves_paused (s : SenderState) (t p : ℚ) :
    (send_hello_packet s t p).1.paused = s.paused := by
  unfold send_hello_packet
  dsimp only
  split <;> rfl

theorem send_hello_packet_preserves_ports (s : SenderState) (t p : ℚ) :
    (send_hello_packet s t p).1.opened_input_ports = s.opened_input_ports := by
  unfold send_hello_packet
  dsimp only
  split <;> rfl

theorem processSenderQueueItem_no_midi (s : SenderState) (item : SenderQueueItem) :
    (processSenderQueueItem s item).2.1.filter isMidiSend = [] := by
  rcases item with c | ⟨ip, hid, hts⟩ | _
  · rcases c <;> rfl
  · rfl
  · rfl

theorem processSenderQueueItem_paused (s : SenderState) (item : SenderQueueItem)
    (h : s.paused = true) (hnr : item ≠ .command .resume) :
    (processSenderQueueItem s item).1.paused = true := by
  rcases item with c | ⟨ip, hid, hts⟩ | _
  · rcases c <;> simp_all [processSenderQueueItem, set_midi_input_ports,
      sender_set_network_interface, set_enable_loopback_interface, set_ignore_midi_clock,
      sender_set_save_cpu_time]
  · exact h
  · exact h

theorem send_midi_messages_empty (s : SenderState)
    (h : ∀ q ∈ s.opened_input_ports, q.2 = ([] : List MidoMessage)) :
    (send_midi_messages s).2 = [] := by
  unfold send_midi_messages
  dsimp only
  have : ∀ ports : List (PyStr × List MidoMessage), (∀ q ∈ ports, q.2 = []) →
      (ports.map fun p => portEvents s.ignore_midi_clock p.1 p.2).flatten = [] := by
    intro ports hp
    induction ports with
    | nil => rfl
    | cons q rest ih =>
      simp only [List.map_cons, List.flatten_cons]
      rw [hp q (by simp)]
      rw [ih fun x hx => hp x (by simp [hx])]
      rfl
  exact this _ h

theorem resume_ports_empty (s : SenderState) :
    ∀ q ∈ (resume_sending_midi_messages s).opened_input_ports, q.2 = ([] : List MidoMessage) := by
  unfold resume_sending_midi_messages
  intro q hq
  simp only [List.mem_map] at hq
  obtain ⟨p, _, hp⟩ := hq
  rw [← hp]

/-- C8: while the sender is paused, no iteration emits a MIDI-message
packet — including the iteration that processes RESUME, since RESUME first
drains and discards everything that accumulated during the pause; after
RESUME the sender is unpaused with all pending lists empty. -/
theorem C8_pause_semantics :
    (∀ (s : SenderState) (inp : SenderInput), s.paused = true →
      (senderStep s inp).1.filter isMidiSend = []) ∧
    (∀ (s : SenderState) (inp : SenderInput), s.paused = true →
      inp.queue_item = some (.command .resume) →
      (senderStep s inp).2.paused = false ∧
      (senderStep s inp).2.opened_input_ports.all (fun q => q.2.isEmpty) = true ∧
      (senderStep s inp).1.filter isMidiSend = []) := by
  have resume_case : ∀ (s : SenderState) (inp : SenderInput), s.paused = true →
      inp.queue_item = some (.command .resume) →
      (senderStep s inp).2.paused = false ∧
      (senderStep s inp).2.opened_input_ports.all (fun q => q.2.isEmpty) = true ∧
      (senderStep s inp).1.filter isMidiSend = [] := by
    intro s inp _ hq
    unfold senderStep
    rw [hq]
    dsimp only [processSenderQueueItem]
    rw [if_neg (by simp)]
    have hpf : (send_hello_packet (resume_sending_midi_messages
        { s with opened_input_ports := applyArrivals s.opened_input_ports inp.arrivals })
        inp.now_time inp.now_perf).1.paused = false := by
      rw [send_hello_packet_preserves_paused]
      rfl
    rw [if_neg (by rw [hpf]; simp)]
    refine ⟨hpf, ?_, ?_⟩
    · dsimp only [send_midi_messages]
      simp [List.all_eq_true]
    · rw [List.filter_append, List.filter_append]
      rw [show ([] : List SenderEffect).filter isMidiSend = [] from rfl]
      rw [send_hello_packet_no_midi]
      rw [send_midi_messages_empty _ (by
        rw [send_hello_packet_preserves_ports]
        exact resume_ports_empty _)]
      rfl
  refine ⟨?_, resume_case⟩
  intro s inp hp
  rcases hq : inp.queue_item with _ | item
  · unfold senderStep
    rw [hq]
    dsimp only
    rw [if_neg (by simp)]
    rw [if_pos (by rw [send_hello_packet_preserves_paused]; exact hp)]
    rw [List.filter_append]
    rw [show ([] : List SenderEffect).filter isMidiSend = [] from rfl]
    rw [send_hello_packet_no_midi]
    rfl
  · by_cases hres : item = .command .resume
    · subst hres
      exact (resume_case s inp hp hq).2.2
    · unfold senderStep
      rw [hq]
      dsimp only
      rcases hskip : (processSenderQueueItem
          { s with opened_input_ports := applyArrivals s.opened_input_ports inp.arrivals }
          item) with ⟨s1, effs1, skip⟩
      rcases skip with _ | _
      · rw [if_neg (by simp)]
        rw [if_pos (by
          rw [send_hello_packet_preserves_paused]
          have := processSenderQueueItem_paused
            { s with opened_input_ports := applyArrivals s.opened_input_ports inp.arrivals }
            item hp hres
          rw [hskip] at this
          exact this)]
        rw [List.filter_append]
        have := processSenderQueueItem_no_midi
          { s with opened_input_ports := applyArrivals s.opened_input_ports inp.arrivals } item
        rw [hskip] at this
        rw [this, send_hello_packet_no_midi]
        rfl
      · rw [if_pos rfl]
        have := processSenderQueueItem_no_midi
          { s with opened_input_ports := applyArrivals s.opened_input_ports inp.arrivals } item
        rw [hskip] at this
        exact this

/-- C8, witness: a paused sender with one port holding a pending note-on
emits nothing on a STOP iteration; processing RESUME discards the pending
event, unpauses, and still emits nothing. -/
theorem C8_pause_semantics_witness :
    ((senderStep
        { network_interface := [49, 50, 55, 46, 48, 46, 48, 46, 49],
          enable_multicast_loop := true, restart := false, running := true, paused := true,
          ignore_midi_clock := true, save_cpu_time := true,
          opened_input_ports := [([107, 98, 100], [⟨"note_on", [144, 60, 64]⟩])],
          timestamp_of_last_hello := some 0, helloCounter := 1, hostname := [104] }
        ⟨[], some (.command .stop), 1, 1⟩).1.filter isMidiSend = []) ∧
    ((senderStep
        { network_interface := [49, 50, 55, 46, 48, 46, 48, 46, 49],
          enable_multicast_loop := true, restart := false, running := true, paused := true,
          ignore_midi_clock := true, save_cpu_time := true,
          opened_input_ports := [([107, 98, 100], [⟨"note_on", [144, 60, 64]⟩])],
          timestamp_of_last_hello := some 0, helloCounter := 1, hostname := [104] }
        ⟨[], some (.command .resume), 1, 1⟩).2.paused = false) ∧
    ((senderStep
        { network_interface := [49, 50, 55, 46, 48, 46, 48, 46, 49],
          enable_multicast_loop := true, restart := false, running := true, paused := true,
          ignore_midi_clock := true, save_cpu_time := true,
          opened_input_ports := [([107, 98, 100], [⟨"note_on", [144, 60, 64]⟩])],
          timestamp_of_last_hello := some 0, helloCounter := 1, hostname := [104] }
        ⟨[], some (.command .resume), 1, 1⟩).2.opened_input_ports.all
          (fun q => q.2.isEmpty) = true) :=
  ⟨C8_pause_semantics.1 _ _ rfl,
   (C8_pause_semantics.2 _ _ rfl rfl).1,
   (C8_pause_semantics.2 _ _ rfl rfl).2.1⟩

/-- Recognise a ROUND_TRIP_TIMES push to the UI queue. -/
def isRttPush : ReceiverEffect → Bool
  | .toUiRoundTripTimes _ => true
  | _ => false

/-- An iteration input whose SET_NETWORK_INTERFACE command (if any) carries
no valid IPv4 literal, so the receiver stays bound to all interfaces. -/
def keepsInterfaceUnset (inp : ReceiverInput) : Bool :=
  match inp.queue_item with
  | some (.command (.setNetworkInterface d)) => (interfaceFromData d).isNone
  | _ => true

/-- The C10 invariant: unbound interface and empty RTT registry. -/
def UnsetInv (s : ReceiverState) : Prop :=
  s.network_interface = none ∧ s.round_trip_times = []

theorem registryAddNames_no_rtt (reg : List (PyStr × List PyStr)) (host : PyStr)
    (names : List PyStr) : ∀ e ∈ (registryAddNames reg host names).2, isRttPush e = false := by
  induction names generalizing reg with
  | nil => simp [registryAddNames]
  | cons n rest ih =>
    unfold registryAddNames
    dsimp only
    by_cases hmem : n ∈ (dictGet host reg).getD []
    · rw [if_pos hmem]
      exact ih reg
    · rw [if_neg hmem]
      intro e he
      rcases List.mem_cons.mp he with he1 | he2
      · rw [he1]
        rfl
      · exact ih _ e he2

theorem processOneHello_inv (s : ReceiverState) (pk : HelloPacket) (ip : PyStr) (now : ℚ) :
    (processOneHello s pk ip now).1.network_interface = s.network_interface ∧
    (processOneHello s pk ip now).1.round_trip_times = s.round_trip_times ∧
    ∀ e ∈ (processOneHello s pk ip now).2, isRttPush e = false := by
  unfold processOneHello
  dsimp only
  by_cases hd : pk.device_names = []
  · rw [if_pos hd]
    exact ⟨rfl, rfl, by intro e he; simp at he; rw [he]; rfl⟩
  · rw [if_neg hd]
    refine ⟨rfl, rfl, ?_⟩
    intro e he
    rcases List.mem_cons.mp he with he1 | he2
    · rw [he1]
      rfl
    · exact registryAddNames_no_rtt _ _ _ e he2

theorem processHelloList_inv (now : ℚ) (pkts : List (HelloPacket × PyStr)) :
    ∀ s : ReceiverState,
    (processHelloList now s pkts).1.network_interface = s.network_interface ∧
    (processHelloList now s pkts).1.round_trip_times = s.round_trip_times ∧
    ∀ e ∈ (processHelloList now s pkts).2, isRttPush e = false := by
  induction pkts with
  | nil => exact fun s => ⟨rfl, rfl, by simp [processHelloList]⟩
  | cons q rest ih =>
    intro s
    obtain ⟨pk, ip⟩ := q
    unfold processHelloList
    dsimp only
    obtain ⟨o1, o2, o3⟩ := processOneHello_inv s pk ip now
    obtain ⟨i1, i2, i3⟩ := ih (processOneHello s pk ip now).1
    refine ⟨by rw [i1, o1], by rw [i2, o2], ?_⟩
    intro e he
    rcases List.mem_append.mp he with he1 | he2
    · exact o3 e he1
    · exact i3 e he2

theorem process_hello_packets_inv (s : ReceiverState) (now : ℚ) :
    (process_hello_packets s now).1.network_interface = s.network_interface ∧
    (process_hello_packets s now).1.round_trip_times = s.round_trip_times ∧
    ∀ e ∈ (process_hello_packets s now).2, isRttPush e = false := by
  unfold process_hello_packets
  dsimp only
  obtain ⟨i1, i2, i3⟩ :=
    processHelloList_inv now s.received_hello_packets { s with received_hello_packets := [] }
  exact ⟨i1, i2, i3⟩

theorem processOneHelloReply_none (s : ReceiverState) (pk : HelloReplyPacket) (ip : PyStr)
    (now : ℚ) (h : s.network_interface = none) :
    processOneHelloReply s pk ip now = (s, []) := by
  unfold processOneHelloReply
  rw [if_pos (by simp [h])]

theorem processHelloReplyList_none (now : ℚ) (pkts : List (HelloReplyPacket × PyStr)) :
    ∀ s : ReceiverState, s.network_interface = none →
    processHelloReplyList now s pkts = (s, []) := by
  induction pkts with
  | nil => exact fun s _ => rfl
  | cons q rest ih =>
    intro s hs
    obtain ⟨pk, ip⟩ := q
    unfold processHelloReplyList
    rw [processOneHelloReply_none s pk ip now hs]
    dsimp only
    rw [ih s hs]
    rfl

theorem process_hello_reply_packets_none (s : ReceiverState) (now : ℚ)
    (h : s.network_interface = none) :
    process_hello_reply_packets s now = ({ s with received_hello_reply_packets := [] }, []) := by
  unfold process_hello_reply_packets
  rw [processHelloReplyList_none now s.received_hello_reply_packets
    { s with received_hello_reply_packets := [] } (by simpa using h)]

theorem processOneMidi_no_rtt (s : ReceiverState) (pk : MidiMessagePacket) :
    ∀ e ∈ processOneMidi s pk, isRttPush e = false := by
  unfold processOneMidi
  dsimp only
  rcases dictGet pk.device_name s.routing_connections with _ | names
  · simp
  · dsimp only
    split_ifs
    · simp
    · intro e he
      rcases List.mem_filterMap.mp he with ⟨n, _, hn⟩
      by_cases hmem : n ∈ s.midi_output_ports
      · rw [if_pos hmem] at hn
        cases hn
        rfl
      · rw [if_neg hmem] at hn
        cases hn

theorem processMidiList_no_rtt (s : ReceiverState) (pkts : List (MidiMessagePacket × PyStr)) :
    ∀ e ∈ processMidiList s pkts, isRttPush e = false := by
  induction pkts with
  | nil => simp [processMidiList]
  | cons q rest ih =>
    obtain ⟨pk, ip⟩ := q
    unfold processMidiList
    intro e he
    rcases List.mem_append.mp he with he1 | he2
    · exact processOneMidi_no_rtt s pk e he1
    · exact ih e he2

theorem check_and_store_inv (s : ReceiverState) (dg : Option (List Nat × PyStr))
    (s' : ReceiverState) (h : check_and_store_incoming_packets s dg = .ok s') :
    s'.network_interface = s.network_interface ∧ s'.round_trip_times = s.round_trip_times := by
  unfold check_and_store_incoming_packets at h
  rcases dg with _ | ⟨data, ip⟩
  · cases h
    exact ⟨rfl, rfl⟩
  · dsimp only at h
    rcases hfb : Packet.from_bytes data with e | p
    · rw [hfb] at h
      dsimp only at h
      split_ifs at h
      cases h
      exact ⟨rfl, rfl⟩
    · rw [hfb] at h
      rcases p with p | p | p <;> (dsimp only at h; cases h; exact ⟨rfl, rfl⟩)

theorem processQueueItem_unset (s : ReceiverState) (item : ReceiverQueueItem)
    (hs : UnsetInv s)
    (hi : ∀ d, item = .command (.setNetworkInterface d) → (interfaceFromData d).isNone = true) :
    UnsetInv (processQueueItem s item).1 ∧
    ∀ e ∈ (processQueueItem s item).2.1, isRttPush e = false := by
  obtain ⟨h1, h2⟩ := hs
  rcases item with c | i | _
  · rcases c with _ | _ | _ | _ | _ | d | b | _
    · exact ⟨⟨h1, h2⟩, by
        intro e he
        simp [processQueueItem, clear_stored_remote_midi_devices] at he
        rw [he]
        rfl⟩
    · exact ⟨⟨h1, h2⟩, by simp [processQueueItem]⟩
    · exact ⟨⟨h1, h2⟩, by simp [processQueueItem]⟩
    · exact ⟨⟨h1, h2⟩, by simp [processQueueItem]⟩
    · exact ⟨⟨h1, h2⟩, by simp [processQueueItem]⟩
    · refine ⟨⟨?_, h2⟩, by simp [processQueueItem]⟩
      exact Option.isNone_iff_eq_none.mp (hi d rfl)
    · exact ⟨⟨h1, h2⟩, by simp [processQueueItem, set_save_cpu_time]⟩
    · exact ⟨⟨h1, h2⟩, by simp [processQueueItem]⟩
  · rcases i with ⟨id, ts⟩ | routes | _
    · exact ⟨⟨h1, h2⟩, by simp [processQueueItem, store_internal_hello_packet_info]⟩
    · exact ⟨⟨h1, h2⟩, by simp [processQueueItem]⟩
    · exact ⟨⟨h1, h2⟩, by simp [processQueueItem]⟩
  · exact ⟨⟨h1, h2⟩, by simp [processQueueItem]⟩

theorem receiverStep_unset (s : ReceiverState) (inp : ReceiverInput) (hs : UnsetInv s)
    (hi : keepsInterfaceUnset inp = true) :
    (∀ e ∈ (receiverStep s inp).1, isRttPush e = false) ∧
    ∀ s', (receiverStep s inp).2 = some s' → UnsetInv s' := by
  unfold receiverStep
  rcases hq : inp.queue_item with _ | item
  · dsimp only
    rw [if_neg (by simp)]
    rcases hcs : check_and_store_incoming_packets s inp.datagram with e | s2
    · exact ⟨by simp, by simp⟩
    · dsimp only
      obtain ⟨c1, c2⟩ := check_and_store_inv s inp.datagram s2 hcs
      obtain ⟨p1, p2, p3⟩ := process_hello_packets_inv s2 inp.now
      have hnone : (process_hello_packets s2 inp.now).1.network_interface = none := by
        rw [p1, c1, hs.1]
      have hrtt : (process_hello_packets s2 inp.now).1.round_trip_times = [] := by
        rw [p2, c2, hs.2]
      rw [process_hello_reply_packets_none _ inp.now hnone]
      dsimp only
      constructor
      · intro e he
        rcases List.mem_append.mp he with he1 | he2
        · rcases List.mem_append.mp he1 with he3 | he4
          · rcases List.mem_append.mp he3 with he5 | he6
            · simp at he5
            · exact p3 e he6
          · simp at he4
        · exact processMidiList_no_rtt _ _ e he2
      · intro s' hs'
        cases hs'
        exact ⟨hnone, hrtt⟩
  · have hmatch : ∀ d, item = .command (.setNetworkInterface d) →
        (interfaceFromData d).isNone = true := by
      intro d hd
      simp only [keepsInterfaceUnset, hq, hd] at hi
      exact hi
    obtain ⟨q1, q2⟩ := processQueueItem_unset s item hs hmatch
    dsimp only
    rcases hpq : processQueueItem s item with ⟨s1, effs1, skip⟩
    rw [hpq] at q1 q2
    rcases skip with _ | _
    · rw [if_neg (by simp)]
      rcases hcs : check_and_store_incoming_packets s1 inp.datagram with e | s2
      · exact ⟨fun e he => q2 e he, by simp⟩
      · dsimp only
        obtain ⟨c1, c2⟩ := check_and_store_inv s1 inp.datagram s2 hcs
        obtain ⟨p1, p2, p3⟩ := process_hello_packets_inv s2 inp.now
        have hnone : (process_hello_packets s2 inp.now).1.network_interface = none := by
          rw [p1, c1, q1.1]
        have hrtt : (process_hello_packets s2 inp.now).1.round_trip_times = [] := by
          rw [p2, c2, q1.2]
        rw [process_hello_reply_packets_none _ inp.now hnone]
        dsimp only
        constructor
        · intro e he
          rcases List.mem_append.mp he with he1 | he2
          · rcases List.mem_append.mp he1 with he3 | he4
            · rcases List.mem_append.mp he3 with he5 | he6
              · exact q2 e he5
              · exact p3 e he6
            · simp at he4
          · exact processMidiList_no_rtt _ _ e he2
        · intro s' hs'
          cases hs'
          exact ⟨hnone, hrtt⟩
    · rw [if_pos rfl]
      refine ⟨fun e he => q2 e he, ?_⟩
      intro s' hs'
      cases hs'
      exact q1

/-- C10: starting from the initial receiver state (interface unset), along
any input trace whose SET_NETWORK_INTERFACE commands never carry a valid
IPv4 literal, no ROUND_TRIP_TIMES message is ever pushed to the UI queue
and the RTT registry stays empty (with the interface still unset). -/
theorem C10_unset_interface_no_rtt (outs : List PyStr) (inps : List ReceiverInput)
    (h : ∀ inp ∈ inps, keepsInterfaceUnset inp = true) :
    (receiverRun (receiverInitState outs) inps).1.filter isRttPush = [] ∧
    ((receiverRun (receiverInitState outs) inps).2.all
      fun s' => s'.network_interface.isNone && s'.round_trip_times.isEmpty) = true := by
  have main : ∀ (inps : List ReceiverInput) (s : ReceiverState), UnsetInv s →
      (∀ inp ∈ inps, keepsInterfaceUnset inp = true) →
      (∀ e ∈ (receiverRun s inps).1, isRttPush e = false) ∧
      ((receiverRun s inps).2.all
        fun s' => s'.network_interface.isNone && s'.round_trip_times.isEmpty) = true := by
    intro inps
    induction inps with
    | nil =>
      intro s hs _
      refine ⟨by simp [receiverRun], ?_⟩
      simp [receiverRun, Option.all, hs.1, hs.2]
    | cons inp rest ih =>
      intro s hs hall
      obtain ⟨st1, st2⟩ := receiverStep_unset s inp hs (hall inp (by simp))
      unfold receiverRun
      rcases hstep : receiverStep s inp with ⟨effs, _ | s1⟩
      · rw [hstep] at st1
        exact ⟨st1, rfl⟩
      · rw [hstep] at st1 st2
        obtain ⟨r1, r2⟩ := ih s1 (st2 s1 rfl) (fun i hi => hall i (by simp [hi]))
        dsimp only
        refine ⟨?_, r2⟩
        intro e he
        rcases List.mem_append.mp he with he1 | he2
        · exact st1 e he1
        · exact r1 e he2
  obtain ⟨m1, m2⟩ := main inps (receiverInitState outs) ⟨rfl, rfl⟩ h
  refine ⟨?_, m2⟩
  rw [List.filter_eq_nil_iff]
  intro e he
  rw [m1 e he]
  simp

/-- C10, witness: two iterations — an invalid SET_NETWORK_INTERFACE
(`'bogus'`) followed by an incoming HELLO-REPLY datagram — push no
ROUND_TRIP_TIMES message and leave the RTT registry empty. -/
theorem C10_unset_interface_no_rtt_witness :
    (receiverRun (receiverInitState [])
      [⟨some (.command (.setNetworkInterface (some [98, 111, 103, 117, 115]))), none, 0⟩,
       ⟨none, some ([77, 73, 68, 73, 1, 2, 0, 0, 0, 7, 10, 0, 0, 2, 1, 97, 0],
         [49, 48, 46, 48, 46, 48, 46, 51]), 1⟩]).1.filter isRttPush = [] ∧
    ((receiverRun (receiverInitState [])
      [⟨some (.command (.setNetworkInterface (some [98, 111, 103, 117, 115]))), none, 0⟩,
       ⟨none, some ([77, 73, 68, 73, 1, 2, 0, 0, 0, 7, 10, 0, 0, 2, 1, 97, 0],
         [49, 48, 46, 48, 46, 48, 46, 51]), 1⟩]).2.all
      fun s' => s'.network_interface.isNone && s'.round_trip_times.isEmpty) = true :=
  C10_unset_interface_no_rtt []
    [⟨some (.command (.setNetworkInterface (some [98, 111, 103, 117, 115]))), none, 0⟩,
     ⟨none, some ([77, 73, 68, 73, 1, 2, 0, 0, 0, 7, 10, 0, 0, 2, 1, 97, 0],
       [49, 48, 46, 48, 46, 48, 46, 51]), 1⟩] (by decide)

/-- C7, counterexample: the device name `'a'` followed by 32 copies of
`'é'` encodes to 65 octets; truncation to 64 octets cuts the last `'é'` in
half, and the trim back to a code-point boundary leaves a 63-octet wire
name — not exactly 64.  The encoded packet's length byte is 63. -/
theorem C7_truncation_counterexample :
    64 < (utf8Encode (97 :: List.replicate 32 233)).length ∧
    (∀ c ∈ (97 :: List.replicate 32 233 : PyStr), ScalarValue c) ∧
    (to_byte_string (97 :: List.replicate 32 233) 64).length = 63 ∧
    (match MidiMessagePacket.to_bytes ⟨97 :: List.replicate 32 233, [144]⟩ with
      | .ok bs => bs.getD 6 0
      | .error _ => 0) = 63 := by
  refine ⟨by decide, by decide, by decide, by decide⟩

/-- C7, amended: a scalar device name longer than 64 octets is encoded with
a wire name of *at most* 64 octets (exactly 64 only when the cut falls on a
code-point boundary), and that wire name is valid UTF-8. -/
theorem C7_truncation (p : MidiMessagePacket) (hsc : ∀ c ∈ p.device_name, ScalarValue c)
    (_hlong : 64 < (utf8Encode p.device_name).length) :
    MidiMessagePacket.to_bytes p = .ok (MIDI_MESSAGE_PACKET_HEADER ++
      [(to_byte_string p.device_name 64).length] ++ to_byte_string p.device_name 64 ++
      p.midi_data) ∧
    (to_byte_string p.device_name 64).length ≤ 64 ∧
    ∃ cps, utf8Decode (to_byte_string p.device_name 64) = some cps := by
  obtain ⟨t, hpre, hdec, hlen⟩ := utf8DecodeIgnore_take_encode p.device_name hsc 64
  have hbs : to_byte_string p.device_name 64 = utf8Encode t := by
    unfold to_byte_string
    rw [hdec]
  refine ⟨?_, ?_, ?_⟩
  · simp only [MidiMessagePacket.to_bytes]
    rw [intToBytes_one _ (by rw [hbs]; omega)]
    rfl
  · rw [hbs]
    exact hlen
  · rw [hbs]
    exact ⟨t, utf8Decode_utf8Encode t fun c hc => hsc c (hpre.subset hc)⟩

/-- C7, witness: the counterexample's name, through the amended statement. -/
theorem C7_truncation_witness :
    MidiMessagePacket.to_bytes ⟨97 :: List.replicate 32 233, [144]⟩ =
      .ok (MIDI_MESSAGE_PACKET_HEADER ++
        [(to_byte_string (97 :: List.replicate 32 233) 64).length] ++
        to_byte_string (97 :: List.replicate 32 233) 64 ++ [144]) ∧
    (to_byte_string (97 :: List.replicate 32 233) 64).length ≤ 64 ∧
    ∃ cps, utf8Decode (to_byte_string (97 :: List.replicate 32 233) 64) = some cps :=
  C7_truncation ⟨97 :: List.replicate 32 233, [144]⟩ (by decide) (by decide)

end MidiOverLan
